import Mathlib

/-!
Shallow embedding of the Cloudflare-to-MyDNS synchronisation scripts
(`contrib/sync_cloudflare_records.py`, `contrib/sync_cloudflare_records_multi_user.py`,
`contrib/sync_pools_direct.py`) together with proofs about the behaviour of the
embedded code.

Modelling conventions:
* Python strings are modelled as `String` or, where character-level reasoning is
  needed (the config parser), as `List Char`.
* Python dictionaries coming from JSON payloads are modelled as structures whose
  fields are `Option`-typed: `none` models an absent key (the code reads them
  with `dict.get`).
* Database tables are modelled as lists of row structures; `AUTO_INCREMENT`
  primary keys are modelled by an explicit `next...Id` counter in the store.
  Timestamp columns (`updated_at`, `last_synced`, `created_at`, `modified_on`)
  are not modelled: every claim treats them as allowed to differ.
* External effects (HTTP transport, the AES-GCM cipher of the `Crypto` library,
  `random.randint` / `random.shuffle`) are passed in as explicit oracle
  parameters; hypotheses on them state exactly what the library guarantees.
* Exceptions are modelled with `Except`; a committed-transaction model is used:
  each model function returns the store as committed by the corresponding
  Python code path (a rollback returns the last committed store).
-/

namespace DnsSync

/-! ## Simple key=value config parsing
Embeds `parse_simple_config` of `sync_cloudflare_records.py` (lines 52-68);
`parse_config_file` of `sync_pools_direct.py` (lines 13-30) performs the same
per-line processing (it differs only in how IO errors are reported). -/

/-- Characters treated as whitespace by Python `str.strip()` (ASCII subset). -/
def pyIsSpace (c : Char) : Bool :=
  c = ' ' ∨ c = '\t' ∨ c = '\n' ∨ c = '\r' ∨ c = '\x0b' ∨ c = '\x0c'

/-- Python `str.strip()`: drop whitespace from both ends. -/
def pyStrip (l : List Char) : List Char :=
  ((l.dropWhile pyIsSpace).reverse.dropWhile pyIsSpace).reverse

/-- Python `str.strip(c)` for a single character: drop every leading and
trailing occurrence of `c`. -/
def pyStripChar (c : Char) (l : List Char) : List Char :=
  ((l.dropWhile (· = c)).reverse.dropWhile (· = c)).reverse

/-- Python `line.split(sep, 1)` when `sep` occurs: the part before the first
separator and the part after it; `none` when the separator does not occur
(the source then skips the line). -/
def splitFirst (sep : Char) : List Char → Option (List Char × List Char)
  | [] => none
  | c :: rest =>
    if c = sep then some ([], rest)
    else
      match splitFirst sep rest with
      | some (a, b) => some (c :: a, b)
      | none => none

/-- Python `line.startswith("#")`. -/
def startsWithHash : List Char → Bool
  | '#' :: _ => true
  | _ => false

/-- The source's inline-comment removal:
`if "#" in line: line = line.split("#", 1)[0].strip()`. -/
def stripInlineComment (l : List Char) : List Char :=
  if '#' ∈ l then pyStrip (l.takeWhile (· ≠ '#')) else l

/-- One iteration of the line loop of `parse_simple_config`: returns the
key/value pair stored into the dict, or `none` when the line is skipped. -/
def parseConfigLine (raw : List Char) : Option (List Char × List Char) :=
  let line := pyStrip raw
  if line = [] ∨ startsWithHash line then none
  else
    let line1 := stripInlineComment line
    match splitFirst '=' line1 with
    | none => none
    | some (k, v) => some (pyStrip k, pyStripChar '\'' (pyStripChar '"' (pyStrip v)))

/-- Python dict assignment `data[key] = value` on an association list. -/
def dictInsert (k v : List Char) (d : List (List Char × List Char)) :
    List (List Char × List Char) :=
  if d.any (fun kv => kv.1 = k) then
    d.map (fun kv => if kv.1 = k then (k, v) else kv)
  else d ++ [(k, v)]

/-- Embeds `parse_simple_config` (`sync_cloudflare_records.py` 52-68): the file
is given as its list of lines. -/
def parse_simple_config (lines : List (List Char)) : List (List Char × List Char) :=
  lines.foldl
    (fun d raw =>
      match parseConfigLine raw with
      | some (k, v) => dictInsert k v d
      | none => d)
    []

/-- Embeds `parse_config_file` (`sync_pools_direct.py` 13-30): the per-line
processing is identical to `parse_simple_config`; the Python wrappers differ
only in IO error handling, which is outside the parsing semantics. -/
def parse_config_file (lines : List (List Char)) : List (List Char × List Char) :=
  parse_simple_config lines

/-! ## Host selector (`DatabaseConnectionManager`, lines 196-230) -/

/-- A database host candidate: host name and port. -/
abbrev DbHost := String × Nat

/-- The policy synonyms accepted by the round-robin branch of `ordered_hosts`. -/
def rrPolicies : List String := ["round-robin", "roundrobin", "rr"]

/-- The policy synonyms accepted by the least-used branch of `ordered_hosts`. -/
def leastPolicies : List String := ["least-used", "least_used", "least"]

/-- Embeds `DatabaseConnectionManager.ordered_hosts` (lines 200-209).
`start` models the value drawn by `random.randint(0, len(hosts) - 1)` and
`shuffled` models the list produced by `random.shuffle`; both are oracle
inputs (the randomness source is external). -/
def ordered_hosts (hosts : List DbHost) (policy : String) (start : Nat)
    (shuffled : List DbHost) : List DbHost :=
  if policy ∈ rrPolicies ∧ hosts ≠ [] then hosts.drop start ++ hosts.take start
  else if policy ∈ leastPolicies then shuffled
  else hosts

/-- The attempt loop of `DatabaseConnectionManager.connect` (lines 211-230):
tries each candidate in order, counting attempts; `ok` is the oracle saying
whether `pymysql.connect` succeeds for a candidate.  `none` models the
exhaustion error raised after the loop (`ConfigError("Unable to connect to
any DB host: ...")`, the spec's `ConnectionExhausted`). -/
def connectAttempts (ok : DbHost → Bool) : List DbHost → Nat → Option DbHost × Nat
  | [], n => (none, n)
  | h :: t, n => if ok h then (some h, n + 1) else connectAttempts ok t (n + 1)

/-- Embeds `DatabaseConnectionManager.connect`: iterate over `ordered_hosts`.
Returns the connected host (or `none` for the exhaustion error) and the total
number of connection attempts made. -/
def connect (hosts : List DbHost) (policy : String) (start : Nat)
    (shuffled : List DbHost) (ok : DbHost → Bool) : Option DbHost × Nat :=
  connectAttempts ok (ordered_hosts hosts policy start shuffled) 0

/-! ## Cloudflare API client (`CloudflareClient`, lines 233-305) -/

/-- A parsed JSON response body, restricted to the keys the client reads.
`none` models an absent key, and for `errors`/`messages` also a falsy value
(the source tests them with Python truthiness: `decoded.get("errors") or ...`).
`total_pages` is `result_info.get("total_pages")` with an absent or falsy
`result_info` collapsed to `none` (the source collapses both to `0`). -/
structure CFBody (α : Type) where
  success : Option Bool
  errors : Option String
  messages : Option String
  result : Option (List α)
  total_pages : Option Nat
deriving DecidableEq

/-- An HTTP response as the client sees it: status code, raw body text, and
the result of `resp.json()` (`none` models a `ValueError` from JSON parsing). -/
structure HttpResponse (α : Type) where
  status : Nat
  text : String
  decoded : Option (CFBody α)
deriving DecidableEq

/-- The one error type of the client (`CloudflareError`), with one constructor
per `raise` site in `CloudflareClient.request` (lines 247-273). -/
inductive CloudflareError where
  | requestFailed (msg : String)
  | invalidResponse (snippet : String)
  | apiError (status : Nat) (message : String)
deriving DecidableEq

/-- Python `text[:200]`. -/
def truncate200 (s : String) : String := ⟨s.data.take 200⟩

/-- Embeds `CloudflareClient.request` (lines 247-273). The transport outcome
(`requests.request`) is the oracle input `tr`: `.error` models a
`requests.RequestException`. -/
def request {α : Type} (tr : Except String (HttpResponse α)) :
    Except CloudflareError (CFBody α) :=
  match tr with
  | .error exc => .error (.requestFailed exc)
  | .ok resp =>
    match resp.decoded with
    | none => .error (.invalidResponse (truncate200 resp.text))
    | some body =>
      if 400 ≤ resp.status ∨ body.success.getD false = false then
        .error (.apiError resp.status
          (body.errors.getD (body.messages.getD (truncate200 resp.text))))
      else .ok body

/-- The pagination loop of `CloudflareClient.paginated_get` (lines 275-292).
`responses` maps a page number to that page's transport outcome; the returned
list of `(page, per_page)` pairs is the log of requests issued.  `fuel` is an
artificial bound needed only because the Python `while True` loop need not
terminate for adversarial responses; once the loop breaks, the result no
longer depends on `fuel`. -/
def paginated_get_go {α : Type} (responses : Nat → Except String (HttpResponse α))
    (per_page : Nat) :
    Nat → Nat → List α → List (Nat × Nat) →
    Except CloudflareError (List α) × List (Nat × Nat)
  | 0, _, acc, log => (.ok acc, log)
  | fuel + 1, page, acc, log =>
    match request (responses page) with
    | .error e => (.error e, log ++ [(page, per_page)])
    | .ok body =>
      let acc1 := acc ++ body.result.getD []
      let log1 := log ++ [(page, per_page)]
      let tp := body.total_pages.getD 0
      if tp = 0 ∨ tp ≤ page then (.ok acc1, log1)
      else paginated_get_go responses per_page fuel (page + 1) acc1 log1

/-- Embeds `CloudflareClient.paginated_get`: start at page 1 with empty
accumulators. -/
def paginated_get {α : Type} (responses : Nat → Except String (HttpResponse α))
    (per_page : Nat) (fuel : Nat) :
    Except CloudflareError (List α) × List (Nat × Nat) :=
  paginated_get_go responses per_page fuel 1 [] []

/-! ## Provider payloads (the JSON dictionaries the sync reads) -/

/-- The `account` sub-object of a zone payload (`zone.get("account")`). -/
structure CFAccountRef where
  id : Option String
  name : Option String
deriving DecidableEq

/-- A zone payload, restricted to the keys read by the sync scripts.
`plan_name` models `(zone.get("plan") or {}).get("name")`; `paused` models the
truthiness of `zone.get("paused")`. -/
structure CFZone where
  id : Option String
  name : Option String
  status : Option String
  paused : Bool
  ztype : Option String
  plan_name : Option String
  account : Option CFAccountRef
deriving DecidableEq

/-- The `tags` value of a record payload: absent (`record.get("tags", [])`
yields `[]`), a list of strings, or present but not a list. -/
inductive TagsField where
  | absent
  | strs (l : List String)
  | other
deriving DecidableEq

/-- A DNS record payload, restricted to the keys read by the sync scripts.
`proxied = none` models an absent `"proxied"` key. -/
structure CFRecord where
  rid : Option String
  rtype : Option String
  name : Option String
  content : Option String
  ttl : Option Nat
  proxied : Option Bool
  priority : Option Nat
  tags : TagsField
  comment : Option String
deriving DecidableEq

/-- A load-balancer payload, restricted to the keys read.  `proxied`/`enabled`
are `none` when the key is absent; `default_pools` is `none` when absent or
JSON `null` (`balancer.get("default_pools") is not None`). -/
structure CFBalancer where
  id : Option String
  name : Option String
  proxied : Option Bool
  enabled : Option Bool
  fallback_pool : Option String
  default_pools : Option (List String)
  steering_policy : Option String
deriving DecidableEq

/-! ## Single-user store (`sync_cloudflare_records.py` tables) -/

/-- A row of `cloudflare_accounts` (columns written by `upsert_account`). -/
structure AccountRow where
  id : Nat
  cf_account_id : String
  name : String
deriving DecidableEq

/-- A row of `cloudflare_zones` (columns written by `upsert_zone`; the
timestamp columns `last_synced`/`updated_at` are not modelled). -/
structure ZoneRow where
  id : Nat
  account_id : Nat
  cf_zone_id : String
  name : Option String
  status : Option String
  paused : Nat
  zone_type : Option String
  plan_name : Option String
deriving DecidableEq

/-- A row of `cloudflare_records` (columns written by `replace_zone_records`).
`data` stores the raw payload (`json.dumps(record, ...)` is a deterministic
injective encoding, so the payload itself is stored); the timestamp column
`modified_on` is not modelled. -/
structure RecordRow where
  zone_id : Nat
  cf_record_id : Option String
  record_type : Option String
  name : Option String
  content : Option String
  ttl : Option Nat
  proxied : Option Nat
  priority : Option Nat
  data : CFRecord
  comment : Option String
  tags : Option String
deriving DecidableEq

/-- A row of `cloudflare_load_balancers` (columns written by
`replace_zone_load_balancers`). -/
structure LBRow where
  zone_id : Nat
  cf_lb_id : Option String
  name : Option String
  proxied : Option Nat
  enabled : Option Nat
  fallback_pool : Option String
  default_pools : Option (List String)
  steering_policy : Option String
  data : CFBalancer
deriving DecidableEq

/-- The single-user database state: the three tables written by the engine
plus the `AUTO_INCREMENT` counters used to model `LAST_INSERT_ID`. -/
structure Store where
  accounts : List AccountRow
  zones : List ZoneRow
  records : List RecordRow
  lbs : List LBRow
  nextAccountId : Nat
  nextZoneId : Nat
deriving DecidableEq

/-- The record row built by the insert of `replace_zone_records`
(lines 360-381). -/
def mkRecordRow (zone_id : Nat) (r : CFRecord) : RecordRow where
  zone_id := zone_id
  cf_record_id := r.rid
  record_type := r.rtype
  name := r.name
  content := r.content
  ttl := r.ttl
  proxied := r.proxied.map (fun b => if b then 1 else 0)
  priority := r.priority
  data := r
  comment := r.comment
  tags :=
    match r.tags with
    | .absent => some ""
    | .strs l => some (String.intercalate "," l)
    | .other => none

/-- The load-balancer row built by the insert of
`replace_zone_load_balancers` (lines 395-409). -/
def mkLBRow (zone_id : Nat) (b : CFBalancer) : LBRow where
  zone_id := zone_id
  cf_lb_id := b.id
  name := b.name
  proxied := b.proxied.map (fun x => if x then 1 else 0)
  enabled := b.enabled.map (fun x => if x then 1 else 0)
  fallback_pool := b.fallback_pool
  default_pools := b.default_pools
  steering_policy := b.steering_policy
  data := b

/-- The zone row written by `upsert_zone` (lines 321-348) for local id `i`,
parent account `aid` and payload `z` with provider id `zid`. -/
def mkZoneRow (i : Nat) (aid : Nat) (zid : String) (z : CFZone) : ZoneRow where
  id := i
  account_id := aid
  cf_zone_id := zid
  name := z.name
  status := z.status
  paused := if z.paused then 1 else 0
  zone_type := z.ztype
  plan_name := z.plan_name

/-- Embeds `upsert_account` (lines 308-318): `INSERT ... ON DUPLICATE KEY
UPDATE` keyed on the unique column `cf_account_id`, recovering the local id
via `LAST_INSERT_ID(id)`.  Returns the local id and the updated store. -/
def upsert_account (st : Store) (cfid : String) (name : String) : Nat × Store :=
  match st.accounts.find? (fun a => a.cf_account_id = cfid) with
  | some row =>
    (row.id,
      { st with
        accounts := st.accounts.map
          (fun a => if a.cf_account_id = cfid then { a with name := name } else a) })
  | none =>
    (st.nextAccountId,
      { st with
        accounts := st.accounts ++ [⟨st.nextAccountId, cfid, name⟩],
        nextAccountId := st.nextAccountId + 1 })

/-- Embeds `upsert_zone` (lines 321-348): `INSERT ... ON DUPLICATE KEY UPDATE`
keyed on the unique column `cf_zone_id`; every non-key column is overwritten
and the local id is recovered via `LAST_INSERT_ID(id)`. -/
def upsert_zone (st : Store) (aid : Nat) (zid : String) (z : CFZone) : Nat × Store :=
  match st.zones.find? (fun r => r.cf_zone_id = zid) with
  | some row =>
    (row.id,
      { st with
        zones := st.zones.map
          (fun r =>
            if r.cf_zone_id = zid then mkZoneRow r.id aid zid z else r) })
  | none =>
    (st.nextZoneId,
      { st with
        zones := st.zones ++ [mkZoneRow st.nextZoneId aid zid z],
        nextZoneId := st.nextZoneId + 1 })

/-- Embeds `replace_zone_records` (lines 351-383): `DELETE FROM
cloudflare_records WHERE zone_id = %s` followed by a bulk insert of the
fetched records. -/
def replace_zone_records (st : Store) (zone_id : Nat) (records : List CFRecord) :
    Store :=
  { st with
    records :=
      st.records.filter (fun r => r.zone_id ≠ zone_id) ++
        records.map (mkRecordRow zone_id) }

/-- Embeds `replace_zone_load_balancers` (lines 386-411). -/
def replace_zone_load_balancers (st : Store) (zone_id : Nat)
    (balancers : List CFBalancer) : Store :=
  { st with
    lbs :=
      st.lbs.filter (fun r => r.zone_id ≠ zone_id) ++
        balancers.map (mkLBRow zone_id) }

/-- The exceptions that can escape the per-zone work of `sync_zone`:
a `CloudflareError` from the record fetch (`cf`) or any other exception,
e.g. a database failure (`other`).  The containment code in `sync_accounts`
distinguishes them (`except CloudflareError`). -/
inductive SyncErr where
  | cf (msg : String)
  | other (msg : String)
deriving DecidableEq

/-- Embeds `sync_zone` (lines 414-426): fetch records (which may raise),
fetch load balancers (soft-failing, hence already a plain list), then in one
transaction upsert the zone and replace its records and load balancers.
Returns the store as committed plus the record and load-balancer counts. -/
def sync_zone (st : Store) (aid : Nat) (zid : String) (z : CFZone)
    (recs : Except SyncErr (List CFRecord)) (bals : List CFBalancer) :
    Except SyncErr (Store × Nat × Nat) :=
  match recs with
  | .error e => .error e
  | .ok records =>
    .ok (replace_zone_load_balancers
      (replace_zone_records (upsert_zone st aid zid z).2
        (upsert_zone st aid zid z).1 records)
      (upsert_zone st aid zid z).1 bals, records.length, bals.length)

/-- The per-run counters of `sync_accounts` (its `summary` dict). -/
structure Summary where
  zones : Nat
  records : Nat
  load_balancers : Nat
deriving DecidableEq

/-- The `cf_account_id` argument of the `upsert_account` call in
`sync_accounts` (line 448-452): `(zone.get("account") or defaults).get("id",
account_id)`. -/
def acctKeyOf (loopAccount : String) (z : CFZone) : String :=
  match z.account with
  | some a => a.id.getD loopAccount
  | none => loopAccount

/-- The `name` argument of the same `upsert_account` call:
`account_data.get("name") or "Cloudflare account"`, where the fallback dict
carries the name `"Cloudflare"`. -/
def acctNameOf (z : CFZone) : String :=
  match z.account with
  | some a =>
    match a.name with
    | some n => if n = "" then "Cloudflare account" else n
    | none => "Cloudflare account"
  | none => "Cloudflare"

/-- The inner zone loop of `sync_accounts` (lines 441-470), for one account's
zone list.  Zones without a truthy id are skipped; the account row is
upserted and committed before each zone; a `CloudflareError` from `sync_zone`
rolls the zone transaction back (the store reverts to the last committed
state) and processing continues; any other exception propagates, carrying the
committed store. -/
def syncZonesLoop (recordsOf : String → Except SyncErr (List CFRecord))
    (lbsOf : String → List CFBalancer) (loopAccount : String) :
    Store → Summary → List CFZone → Except (Store × String) (Store × Summary)
  | st, sm, [] => .ok (st, sm)
  | st, sm, z :: rest =>
    match z.id with
    | none => syncZonesLoop recordsOf lbsOf loopAccount st sm rest
    | some zid =>
      if zid = "" then syncZonesLoop recordsOf lbsOf loopAccount st sm rest
      else
        match sync_zone (upsert_account st (acctKeyOf loopAccount z) (acctNameOf z)).2
            (upsert_account st (acctKeyOf loopAccount z) (acctNameOf z)).1 zid z
            (recordsOf zid) (lbsOf zid) with
        | .ok (st2, rc, lc) =>
          syncZonesLoop recordsOf lbsOf loopAccount st2
            ⟨sm.zones + 1, sm.records + rc, sm.load_balancers + lc⟩ rest
        | .error (.cf _) =>
          syncZonesLoop recordsOf lbsOf loopAccount
            (upsert_account st (acctKeyOf loopAccount z) (acctNameOf z)).2 sm rest
        | .error (.other m) =>
          .error ((upsert_account st (acctKeyOf loopAccount z) (acctNameOf z)).2, m)

/-- The account loop of `sync_accounts` (lines 431-470): for each account
id, list its zones (a `CloudflareError` there skips the account) and run the
zone loop.  A non-`CloudflareError` exception aborts the whole run. -/
def syncAccountsGo (zonesOf : String → Except String (List CFZone))
    (recordsOf : String → Except SyncErr (List CFRecord))
    (lbsOf : String → List CFBalancer) :
    Store → Summary → List String → Except (Store × String) (Store × Summary)
  | st, sm, [] => .ok (st, sm)
  | st, sm, a :: rest =>
    match zonesOf a with
    | .error _ => syncAccountsGo zonesOf recordsOf lbsOf st sm rest
    | .ok zs =>
      match syncZonesLoop recordsOf lbsOf a st sm zs with
      | .ok (st2, sm2) => syncAccountsGo zonesOf recordsOf lbsOf st2 sm2 rest
      | .error e => .error e

/-- Embeds `sync_accounts` (lines 429-471): run the account loop with fresh
summary counters. -/
def sync_accounts (st : Store) (account_ids : List String)
    (zonesOf : String → Except String (List CFZone))
    (recordsOf : String → Except SyncErr (List CFRecord))
    (lbsOf : String → List CFBalancer) :
    Except (Store × String) (Store × Summary) :=
  syncAccountsGo zonesOf recordsOf lbsOf st ⟨0, 0, 0⟩ account_ids

/-- Embeds `main` of `sync_cloudflare_records.py` (lines 486-524) as its exit
code.  Config-loading failure and connection exhaustion return 1; after a run
of `sync_accounts` the function always returns 0 (the summary carries no
error counter); an exception escaping `sync_accounts` crashes the process
(modelled as exit code 2, any non-zero value). -/
def su_main (cfgOk : Bool) (connectOk : Bool) (st : Store)
    (account_ids : List String)
    (zonesOf : String → Except String (List CFZone))
    (recordsOf : String → Except SyncErr (List CFRecord))
    (lbsOf : String → List CFBalancer) : Nat :=
  if cfgOk = false then 1
  else if connectOk = false then 1
  else
    match sync_accounts st account_ids zonesOf recordsOf lbsOf with
    | .ok _ => 0
    | .error _ => 2

/-! ## Multi-user sync (`sync_cloudflare_records_multi_user.py`) -/

/-- Python truthiness of an optional string (`if not zone_id: ...`). -/
def truthy : Option String → Bool
  | some s => s ≠ ""
  | none => false

/-- The default API base (`DEFAULT_CF_API`). -/
def DEFAULT_CF_API : String := "https://api.cloudflare.com/client/v4"

/-- Hexadecimal digit value, as accepted by Python `bytes.fromhex`. -/
def hexVal? (c : Char) : Option Nat :=
  if '0' ≤ c ∧ c ≤ '9' then some (c.toNat - '0'.toNat)
  else if 'a' ≤ c ∧ c ≤ 'f' then some (c.toNat - 'a'.toNat + 10)
  else if 'A' ≤ c ∧ c ≤ 'F' then some (c.toNat - 'A'.toNat + 10)
  else none

/-- Python `bytes.fromhex` on a spaceless string: an even number of hex
digits, decoded to a byte list; `none` models the `ValueError`. -/
def hexDecode? : List Char → Option (List Nat)
  | [] => some []
  | [_] => none
  | c1 :: c2 :: rest =>
    match hexVal? c1, hexVal? c2, hexDecode? rest with
    | some a, some b, some t => some ((16 * a + b) :: t)
    | _, _, _ => none

/-- Python `encrypted_data.split(":")` on the character list. -/
def splitOnColon : List Char → List (List Char)
  | [] => [[]]
  | c :: rest =>
    if c = ':' then [] :: splitOnColon rest
    else
      match splitOnColon rest with
      | h :: t => (c :: h) :: t
      | [] => [[c]]

/-- Embeds `decrypt_api_key` (multi-user script, lines 49-68).  `cipher` is
the oracle for `AES.new(key, MODE_GCM, nonce=iv).decrypt_and_verify(ct, tag)`
(key fixed by the process environment): `none` models the authentication
failure raised by the library.  The function fails (`.error`) exactly when
the Python function raises. -/
def decrypt_api_key (cipher : List Nat → List Nat → List Nat → Option String)
    (encrypted_data : String) : Except String String :=
  match splitOnColon encrypted_data.data with
  | [p0, p1, p2] =>
    match hexDecode? p0, hexDecode? p1, hexDecode? p2 with
    | some iv, some tag, some ct =>
      match cipher iv tag ct with
      | some plain => .ok plain
      | none => .error "MAC check failed"
    | _, _, _ => .error "non-hexadecimal number found in fromhex() arg"
  | _ => .error "Invalid encrypted data format"

/-- A row of `dnsmanager_cloudflare_credentials` as selected by
`load_user_credentials` (the secret still encrypted). -/
structure CredRow where
  id : Nat
  user_id : Nat
  account_id : Nat
  cf_email : String
  cf_api_key : String
  cf_account_id : String
  cf_domain : Option String
  cf_api_url : Option String
  enabled : Bool
  auto_sync : Bool
deriving DecidableEq

/-- The dataclass `UserCloudflareCredential` (multi-user script, lines
71-84), with `cf_api_key` decrypted. -/
structure UserCloudflareCredential where
  id : Nat
  user_id : Nat
  account_id : Nat
  cf_email : String
  cf_api_key : String
  cf_account_id : String
  cf_domain : Option String
  cf_api_url : String
  enabled : Bool
  auto_sync : Bool
deriving DecidableEq

/-- Embeds `load_user_credentials` (lines 86-130): the SQL `WHERE enabled = 1
AND auto_sync = 1` filter followed by the per-row loop, in which a failing
`decrypt_api_key` logs and skips that single row (`continue`). -/
def load_user_credentials (cipher : List Nat → List Nat → List Nat → Option String)
    (rows : List CredRow) : List UserCloudflareCredential :=
  (rows.filter (fun r => r.enabled && r.auto_sync)).filterMap
    (fun r =>
      match decrypt_api_key cipher r.cf_api_key with
      | .ok key =>
        some
          { id := r.id, user_id := r.user_id, account_id := r.account_id,
            cf_email := r.cf_email, cf_api_key := key,
            cf_account_id := r.cf_account_id, cf_domain := r.cf_domain,
            cf_api_url :=
              match r.cf_api_url with
              | some u => if u = "" then DEFAULT_CF_API else u
              | none => DEFAULT_CF_API,
            enabled := r.enabled, auto_sync := r.auto_sync }
      | .error _ => none)

/-- A row of `cloudflare_zones` as written by the multi-user script (it
writes a different column subset than the single-user script; timestamps not
modelled). -/
structure MUZoneRow where
  id : Nat
  cf_zone_id : String
  cf_account_id : Nat
  name : String
  status : String
deriving DecidableEq

/-- A row of `cloudflare_records` as written by the multi-user script
(`cf_zone_id` holds the local zone id per its INSERT). -/
structure MURecordRow where
  cf_record_id : String
  cf_zone_id : Nat
  name : String
  rtype : String
  content : String
  ttl : Nat
  proxied : Bool
  priority : Nat
deriving DecidableEq

/-- The sync-status columns of one `dnsmanager_cloudflare_credentials` row
(`last_sync_at` is a timestamp, not modelled). -/
structure CredStatusRow where
  id : Nat
  last_sync_status : Option String
  last_sync_error : Option String
deriving DecidableEq

/-- The database state touched by the multi-user script. -/
structure MUStore where
  accounts : List AccountRow
  zones : List MUZoneRow
  records : List MURecordRow
  credStatus : List CredStatusRow
  nextAccountId : Nat
  nextZoneId : Nat
deriving DecidableEq

/-- Embeds `update_credential_sync_status` (lines 133-150): an SQL `UPDATE
... WHERE id = %s` — a no-op when no row matches. -/
def update_credential_sync_status (st : MUStore) (credential_id : Nat)
    (status : String) (error : Option String) : MUStore :=
  { st with
    credStatus :=
      st.credStatus.map
        (fun r =>
          if r.id = credential_id then
            { r with last_sync_status := some status, last_sync_error := error }
          else r) }

/-- The get-or-create on `cloudflare_accounts` at the top of
`sync_cloudflare_account` (lines 170-186): a SELECT by `cf_account_id`
followed, on miss, by an INSERT with the name `"Account "` plus the first 8
characters of the id. -/
def mu_get_or_create_account (st : MUStore) (cf_account_id : String) :
    Nat × MUStore :=
  match st.accounts.find? (fun a => a.cf_account_id = cf_account_id) with
  | some row => (row.id, st)
  | none =>
    (st.nextAccountId,
      { st with
        accounts :=
          st.accounts ++
            [⟨st.nextAccountId, cf_account_id,
              ⟨"Account ".data ++ cf_account_id.data.take 8⟩⟩],
        nextAccountId := st.nextAccountId + 1 })

/-- The zone `INSERT ... ON DUPLICATE KEY UPDATE` of the multi-user script
(lines 207-220), keyed on the unique column `cf_zone_id`; only `name` and
`status` are updated on conflict. -/
def mu_upsert_zone (st : MUStore) (cf_zone_id : String) (acct : Nat)
    (name status : String) : MUStore :=
  if st.zones.any (fun r => r.cf_zone_id = cf_zone_id) then
    { st with
      zones :=
        st.zones.map
          (fun r =>
            if r.cf_zone_id = cf_zone_id then
              { r with name := name, status := status }
            else r) }
  else
    { st with
      zones := st.zones ++ [⟨st.nextZoneId, cf_zone_id, acct, name, status⟩],
      nextZoneId := st.nextZoneId + 1 }

/-- The record `INSERT ... ON DUPLICATE KEY UPDATE` of the multi-user script
(lines 253-279), keyed on the provider record id; `cf_zone_id` is not updated
on conflict.  No row is ever deleted. -/
def mu_upsert_record (rs : List MURecordRow) (row : MURecordRow) :
    List MURecordRow :=
  if rs.any (fun r => r.cf_record_id = row.cf_record_id) then
    rs.map
      (fun r =>
        if r.cf_record_id = row.cf_record_id then
          { r with
            name := row.name, rtype := row.rtype, content := row.content,
            ttl := row.ttl, proxied := row.proxied, priority := row.priority }
        else r)
  else rs ++ [row]

/-- One iteration of the record loop of `sync_cloudflare_account` (lines
227-284): returns the store and the `(records_synced, errors)` deltas.
Incomplete records and records whose zone row cannot be found count one
error each and are skipped. -/
def mu_sync_record (st : MUStore) (zone_cf_id : String) (r : CFRecord) :
    MUStore × Nat × Nat :=
  if (truthy r.rid && truthy r.name && truthy r.rtype && truthy r.content) = false
  then (st, 0, 1)
  else
    match st.zones.find? (fun z => z.cf_zone_id = zone_cf_id) with
    | none => (st, 0, 1)
    | some zrow =>
      ({ st with
          records :=
            mu_upsert_record st.records
              { cf_record_id := r.rid.getD "", cf_zone_id := zrow.id,
                name := r.name.getD "", rtype := r.rtype.getD "",
                content := r.content.getD "", ttl := r.ttl.getD 1,
                proxied := r.proxied.getD false,
                priority := r.priority.getD 0 } },
        1, 0)

/-- One iteration of the zone loop of `sync_cloudflare_account` (lines
192-289): returns the store and `(zones_synced, records_synced, errors)`
deltas.  The zone row is committed before the record fetch; a record-fetch
failure is caught at the zone level (`errors += 1`, continue), leaving the
committed zone row in place. -/
def mu_sync_zone (st : MUStore) (acct : Nat) (cf_domain : Option String)
    (recordsOf : String → Except String (List CFRecord)) (z : CFZone) :
    MUStore × Nat × Nat × Nat :=
  if truthy cf_domain ∧ z.name ≠ cf_domain then (st, 0, 0, 0)
  else if (truthy z.id && truthy z.name) = false then (st, 0, 0, 1)
  else
    match recordsOf (z.id.getD "") with
    | .error _ =>
      (mu_upsert_zone st (z.id.getD "") acct (z.name.getD "") (z.status.getD "active"),
        1, 0, 1)
    | .ok records =>
      ((records.foldl
          (fun acc r =>
            ((mu_sync_record acc.1 (z.id.getD "") r).1,
              acc.2.1 + (mu_sync_record acc.1 (z.id.getD "") r).2.1,
              acc.2.2 + (mu_sync_record acc.1 (z.id.getD "") r).2.2))
          (mu_upsert_zone st (z.id.getD "") acct (z.name.getD "")
            (z.status.getD "active"), 0, 0)).1, 1,
        (records.foldl
          (fun acc r =>
            ((mu_sync_record acc.1 (z.id.getD "") r).1,
              acc.2.1 + (mu_sync_record acc.1 (z.id.getD "") r).2.1,
              acc.2.2 + (mu_sync_record acc.1 (z.id.getD "") r).2.2))
          (mu_upsert_zone st (z.id.getD "") acct (z.name.getD "")
            (z.status.getD "active"), 0, 0)).2.1,
        (records.foldl
          (fun acc r =>
            ((mu_sync_record acc.1 (z.id.getD "") r).1,
              acc.2.1 + (mu_sync_record acc.1 (z.id.getD "") r).2.1,
              acc.2.2 + (mu_sync_record acc.1 (z.id.getD "") r).2.2))
          (mu_upsert_zone st (z.id.getD "") acct (z.name.getD "")
            (z.status.getD "active"), 0, 0)).2.2)

/-- Embeds `sync_cloudflare_account` (lines 153-306).  `zonesR` is the
outcome of `list_zones`; a `CloudflareError` there marks the credential (if
any) failed and re-raises, carrying the committed store.  On the normal path
the zone loop deltas are summed and
`(store, zones_synced, records_synced, errors)` is returned. -/
def sync_cloudflare_account (st : MUStore) (cf_account_id : String)
    (cf_domain : Option String) (credential_id : Option Nat)
    (zonesR : Except String (List CFZone))
    (recordsOf : String → Except String (List CFRecord)) :
    Except (MUStore × String) (MUStore × Nat × Nat × Nat) :=
  match zonesR with
  | .error e =>
    .error
      (match credential_id with
        | some cid =>
          update_credential_sync_status (mu_get_or_create_account st cf_account_id).2
            cid "failed" (some e)
        | none => (mu_get_or_create_account st cf_account_id).2, e)
  | .ok zones =>
    .ok
      (zones.foldl
        (fun acc z =>
          ((mu_sync_zone acc.1 (mu_get_or_create_account st cf_account_id).1
              cf_domain recordsOf z).1,
            acc.2.1 + (mu_sync_zone acc.1 (mu_get_or_create_account st cf_account_id).1
              cf_domain recordsOf z).2.1,
            acc.2.2.1 + (mu_sync_zone acc.1 (mu_get_or_create_account st cf_account_id).1
              cf_domain recordsOf z).2.2.1,
            acc.2.2.2 + (mu_sync_zone acc.1 (mu_get_or_create_account st cf_account_id).1
              cf_domain recordsOf z).2.2.2))
        ((mu_get_or_create_account st cf_account_id).2, 0, 0, 0))

/-- The loop over global account ids in the multi-user `main` (lines
337-363): one `try` block wraps the whole loop, so a raised
`CloudflareError` adds one error and abandons the remaining global accounts. -/
def mu_global_loop (zonesOfG : String → Except String (List CFZone))
    (recordsOfG : String → Except String (List CFRecord)) :
    MUStore → Nat → List String → MUStore × Nat
  | st, errs, [] => (st, errs)
  | st, errs, a :: rest =>
    match sync_cloudflare_account st a none none (zonesOfG a) recordsOfG with
    | .ok (st2, _, _, e) => mu_global_loop zonesOfG recordsOfG st2 (errs + e) rest
    | .error (st2, _) => (st2, errs + 1)

/-- The loop over decrypted user credentials in the multi-user `main` (lines
371-414): each credential has its own `try`, so failures are contained per
credential; successful syncs record `success`/`partial`, exceptions record
`failed` and add one error. -/
def mu_user_loop (zonesOfU : Nat → Except String (List CFZone))
    (recordsOfU : Nat → String → Except String (List CFRecord)) :
    MUStore → Nat → List UserCloudflareCredential → MUStore × Nat
  | st, errs, [] => (st, errs)
  | st, errs, c :: rest =>
    match sync_cloudflare_account st c.cf_account_id c.cf_domain (some c.id)
        (zonesOfU c.id) (recordsOfU c.id) with
    | .ok (st2, _, _, e) =>
      let status := if e = 0 then "success" else "partial"
      mu_user_loop zonesOfU recordsOfU
        (update_credential_sync_status st2 c.id status none) (errs + e) rest
    | .error (st2, m) =>
      mu_user_loop zonesOfU recordsOfU
        (update_credential_sync_status st2 c.id "failed" (some m)) (errs + 1) rest

/-- Embeds `main` of the multi-user script (lines 309-428) from the point
where the database connection is established, as `(exit code, total_errors,
store)`.  `globalCfg` is `none` when the global config is skipped or absent,
`some (.error e)` when loading it raises `ConfigError`, and `some (.ok ids)`
when it yields the global account ids.  The exit code is
`0 if total_errors == 0 else 1` (line 423). -/
def mu_main (st : MUStore) (globalCfg : Option (Except String (List String)))
    (zonesOfG : String → Except String (List CFZone))
    (recordsOfG : String → Except String (List CFRecord))
    (skipUsers : Bool) (credRows : List CredRow)
    (cipher : List Nat → List Nat → List Nat → Option String)
    (zonesOfU : Nat → Except String (List CFZone))
    (recordsOfU : Nat → String → Except String (List CFRecord)) :
    Nat × Nat × MUStore :=
  let g :=
    match globalCfg with
    | none => (st, 0)
    | some (.error _) => (st, 1)
    | some (.ok ids) => mu_global_loop zonesOfG recordsOfG st 0 ids
  let u :=
    if skipUsers then g
    else
      mu_user_loop zonesOfU recordsOfU g.1 g.2
        (load_user_credentials cipher credRows)
  (if u.2 = 0 then 0 else 1, u.2, u.1)

/-! ## Pool/origin linker (`sync_pools_direct.py`, lines 78-235) -/

/-- An origin entry of a pool payload, restricted to the keys read.
`weight` is a JSON number passed through unchanged; it is modelled as a
rational.  `header_host` models `origin.get("header", {}).get("Host")` with a
non-dict header collapsed to `none`. -/
structure OriginData where
  name : Option String
  address : Option String
  enabled : Option Bool
  weight : Option Rat
  port : Option Nat
  header_host : Option String
deriving DecidableEq

/-- A pool payload, restricted to the keys read.
`origin_steering_policy` models `pool_data.get("origin_steering",
{}).get("policy", "random")`; `notification_filter_keys` is the key set of
`notification_filter` when that value is a dict, `none` otherwise. -/
structure PoolData where
  name : Option String
  description : Option String
  enabled : Option Bool
  minimum_origins : Option Nat
  monitor : Option String
  origin_steering_policy : Option String
  notification_email : Option String
  notification_filter_keys : Option (List String)
  origins : List OriginData
deriving DecidableEq

/-- A row of `cloudflare_lb_pools` (columns written by the pool sync). -/
structure PoolRow where
  id : Nat
  lb_id : Nat
  cf_pool_id : String
  name : Option String
  description : Option String
  enabled : Nat
  minimum_origins : Nat
  monitor : Option String
  origin_steering_policy : String
  notification_email : Option String
  notification_enabled : Nat
deriving DecidableEq

/-- A row of `cloudflare_lb_pool_origins`. -/
structure OriginRow where
  pool_id : Nat
  name : Option String
  address : Option String
  enabled : Nat
  weight : Rat
  port : Option Nat
  header_host : Option String
deriving DecidableEq

/-- The pool-linker database state. -/
structure PoolStore where
  pools : List PoolRow
  origins : List OriginRow
  nextPoolId : Nat
deriving DecidableEq

/-- A `cloudflare_load_balancers` row as read back by the pool sync
(lines 109-114): `SELECT id, cf_lb_id, name, default_pools`.  The `id` column
is the row's auto-increment primary key, which the single-user model does not
track; the pool sync consumes it as an opaque foreign key. -/
structure LBInfo where
  id : Nat
  cf_lb_id : Option String
  name : Option String
  default_pools : Option (List String)
deriving DecidableEq

/-- The `notification_enabled` derivation (lines 159-164): 1 iff
`notification_filter` is a truthy dict containing the key `"pool"`. -/
def notificationEnabledOf (d : PoolData) : Nat :=
  match d.notification_filter_keys with
  | some ks => if "pool" ∈ ks then 1 else 0
  | none => 0

/-- The pool row written by the UPDATE/INSERT of the pool sync (lines
166-203). -/
def mkPoolRow (i : Nat) (lb_id : Nat) (cf_pool_id : String) (d : PoolData) :
    PoolRow where
  id := i
  lb_id := lb_id
  cf_pool_id := cf_pool_id
  name := d.name
  description := d.description
  enabled := if d.enabled.getD true then 1 else 0
  minimum_origins := d.minimum_origins.getD 1
  monitor := d.monitor
  origin_steering_policy := d.origin_steering_policy.getD "random"
  notification_email := d.notification_email
  notification_enabled := notificationEnabledOf d

/-- The origin row written by the origin INSERT (lines 210-223). -/
def mkOriginRow (pool_id : Nat) (o : OriginData) : OriginRow where
  pool_id := pool_id
  name := o.name
  address := o.address
  enabled := if o.enabled.getD true then 1 else 0
  weight := o.weight.getD 1
  port := o.port
  header_host := o.header_host

/-- The select-update-or-insert on `cloudflare_lb_pools` keyed on
`(lb_id, cf_pool_id)` (lines 153-203), returning the pool's local id. -/
def upsertPool (ps : PoolStore) (lb_id : Nat) (cf_pool_id : String)
    (d : PoolData) : Nat × PoolStore :=
  match ps.pools.find? (fun p => p.lb_id = lb_id ∧ p.cf_pool_id = cf_pool_id) with
  | some row =>
    (row.id,
      { ps with
        pools :=
          ps.pools.map
            (fun p =>
              if p.lb_id = lb_id ∧ p.cf_pool_id = cf_pool_id then
                mkPoolRow p.id lb_id cf_pool_id d
              else p) })
  | none =>
    (ps.nextPoolId,
      { ps with
        pools := ps.pools ++ [mkPoolRow ps.nextPoolId lb_id cf_pool_id d],
        nextPoolId := ps.nextPoolId + 1 })

/-- The first load balancer whose `default_pools` list mentions the pool id
(the source loop breaks after the first match; a NULL or unparseable
`default_pools` never matches). -/
def lbForPool (lbs : List LBInfo) (cf_pool_id : String) : Option LBInfo :=
  lbs.find?
    (fun lb =>
      match lb.default_pools with
      | some pl => cf_pool_id ∈ pl
      | none => false)

/-- One iteration of the pool loop (lines 139-229): fetch the pool (a failed
or falsy fetch skips the id), find the FIRST load balancer whose
`default_pools` list mentions it (the loop breaks after one match), upsert
the pool under that load balancer and fully replace its origin rows. -/
def sync_one_pool (ps : PoolStore) (lbs : List LBInfo) (cf_pool_id : String)
    (fetch : String → Option PoolData) : PoolStore :=
  match fetch cf_pool_id with
  | none => ps
  | some d =>
    match lbForPool lbs cf_pool_id with
    | none => ps
    | some lb =>
      { (upsertPool ps lb.id cf_pool_id d).2 with
        origins :=
          (upsertPool ps lb.id cf_pool_id d).2.origins.filter
            (fun o => o.pool_id ≠ (upsertPool ps lb.id cf_pool_id d).1) ++
            d.origins.map (mkOriginRow (upsertPool ps lb.id cf_pool_id d).1) }

/-- Embeds the pool loop of `sync_pools_for_zone` (lines 137-231).
`pool_order` is the iteration order of the Python set of referenced pool ids
(set iteration order is unspecified, so it is an input). -/
def sync_pools_for_zone (ps : PoolStore) (lbs : List LBInfo)
    (pool_order : List String) (fetch : String → Option PoolData) : PoolStore :=
  pool_order.foldl (fun acc pid => sync_one_pool acc lbs pid fetch) ps

/-! ## Theorems: C10 (config parser truncates at the first hash) -/

theorem mem_of_mem_dropWhile {α : Type} {p : α → Bool} {l : List α} {c : α}
    (h : c ∈ l.dropWhile p) : c ∈ l :=
  (List.dropWhile_sublist p).subset h

theorem mem_of_mem_pyStrip {l : List Char} {c : Char} (h : c ∈ pyStrip l) :
    c ∈ l := by
  unfold pyStrip at h
  rw [List.mem_reverse] at h
  have h2 := mem_of_mem_dropWhile h
  rw [List.mem_reverse] at h2
  exact mem_of_mem_dropWhile h2

theorem mem_of_mem_pyStripChar {l : List Char} {c d : Char}
    (h : c ∈ pyStripChar d l) : c ∈ l := by
  unfold pyStripChar at h
  rw [List.mem_reverse] at h
  have h2 := mem_of_mem_dropWhile h
  rw [List.mem_reverse] at h2
  exact mem_of_mem_dropWhile h2

theorem mem_of_mem_splitFirst_snd {sep : Char} {l a b : List Char} {c : Char}
    (hs : splitFirst sep l = some (a, b)) (h : c ∈ b) : c ∈ l := by
  induction l generalizing a b with
  | nil => simp [splitFirst] at hs
  | cons x t ih =>
    unfold splitFirst at hs
    by_cases hx : x = sep
    · simp [hx] at hs
      obtain ⟨ha, hb⟩ := hs
      subst hb
      exact List.mem_cons_of_mem _ h
    · simp [hx] at hs
      cases hrec : splitFirst sep t with
      | none => rw [hrec] at hs; simp at hs
      | some p =>
        rw [hrec] at hs
        cases p with
        | mk a0 b0 =>
          simp at hs
          obtain ⟨ha, hb⟩ := hs
          subst hb
          exact List.mem_cons_of_mem _ (ih hrec h)

theorem no_hash_stripInlineComment {l : List Char} :
    ('#' : Char) ∉ stripInlineComment l := by
  unfold stripInlineComment
  by_cases hc : ('#' : Char) ∈ l
  · rw [if_pos hc]
    intro hmem
    have := List.mem_takeWhile_imp (mem_of_mem_pyStrip hmem)
    simp at this
  · rw [if_neg hc]
    exact hc

theorem parseConfigLine_no_hash {raw k v : List Char}
    (h : parseConfigLine raw = some (k, v)) : ('#' : Char) ∉ v := by
  unfold parseConfigLine at h
  by_cases h0 : pyStrip raw = [] ∨ startsWithHash (pyStrip raw)
  · simp [h0] at h
  · simp only [h0, if_false] at h
    cases hs : splitFirst '=' (stripInlineComment (pyStrip raw)) with
    | none => rw [hs] at h; simp at h
    | some p =>
      rw [hs] at h
      cases p with
      | mk k0 v0 =>
        simp at h
        obtain ⟨hk, hv⟩ := h
        subst hv
        intro hmem
        exact no_hash_stripInlineComment
          (mem_of_mem_splitFirst_snd hs
            (mem_of_mem_pyStrip
              (mem_of_mem_pyStripChar (mem_of_mem_pyStripChar hmem))))

theorem dictInsert_no_hash {k v : List Char} {d : List (List Char × List Char)}
    (hd : ∀ kv ∈ d, ('#' : Char) ∉ kv.2) (hv : ('#' : Char) ∉ v) :
    ∀ kv ∈ dictInsert k v d, ('#' : Char) ∉ kv.2 := by
  intro kv hkv
  unfold dictInsert at hkv
  by_cases hex : d.any (fun kv => kv.1 = k)
  · simp only [hex, if_true] at hkv
    obtain ⟨kv0, hkv0, heq⟩ := List.mem_map.mp hkv
    by_cases hk : kv0.1 = k
    · simp [hk] at heq
      subst heq
      exact hv
    · simp [hk] at heq
      subst heq
      exact hd kv0 hkv0
  · simp only [hex, if_false] at hkv
    rcases List.mem_append.mp hkv with hmem | hmem
    · exact hd kv hmem
    · simp at hmem
      subst hmem
      exact hv

/-- C10: the config parser truncates every line at the first `'#'` before
splitting on `'='` — even inside a quoted value — so no parsed value ever
contains `'#'`, and a value containing `'#'` is silently truncated (the line
still yields an entry) rather than rejected. -/
theorem C10_hash_truncation :
    (∀ (lines : List (List Char)) kv, kv ∈ parse_simple_config lines →
      ('#' : Char) ∉ kv.2) ∧
    parse_simple_config ["db-password=\"secret#tail\"".data] =
      [("db-password".data, "secret".data)] ∧
    parse_config_file ["api_key=abc#def".data] = [("api_key".data, "abc".data)] := by
  refine ⟨?_, by decide, by decide⟩
  intro lines
  unfold parse_simple_config
  suffices h : ∀ (d : List (List Char × List Char)),
      (∀ kv ∈ d, ('#' : Char) ∉ kv.2) →
      ∀ kv ∈ lines.foldl
        (fun d raw =>
          match parseConfigLine raw with
          | some (k, v) => dictInsert k v d
          | none => d) d, ('#' : Char) ∉ kv.2 by
    exact h [] (by simp)
  induction lines with
  | nil => intro d hd kv hkv; exact hd kv hkv
  | cons raw rest ih =>
    intro d hd kv hkv
    simp only [List.foldl_cons] at hkv
    cases hline : parseConfigLine raw with
    | none =>
      rw [hline] at hkv
      exact ih d hd kv hkv
    | some p =>
      rw [hline] at hkv
      cases p with
      | mk k0 v0 =>
        exact ih _ (dictInsert_no_hash hd (parseConfigLine_no_hash hline)) kv hkv

/-- Witness for C10 at a concrete input. -/
theorem C10_hash_truncation_witness :
    (("user".data, "alice".data) ∈ parse_simple_config ["user=alice".data]) ∧
    ('#' : Char) ∉ ("alice".data) :=
  ⟨by decide, C10_hash_truncation.1 ["user=alice".data] ("user".data, "alice".data)
    (by decide)⟩

/-! ## Theorems: C9 (host selection policies) -/

/-- C9: the host selector returns a permutation of the configured candidates
containing each exactly once; `sequential` keeps the configured order,
`round-robin` yields a rotation of the list, `least-used` yields the shuffle
(an arbitrary permutation), and any unknown policy string behaves like
`sequential` (order unchanged).  `start` and `shuffled` stand for the
library randomness, with `shuffled` any permutation as `random.shuffle`
guarantees. -/
theorem C9_host_policy_permutation (hosts : List DbHost) (policy : String)
    (start : Nat) (shuffled : List DbHost) (hshuf : shuffled.Perm hosts) :
    (ordered_hosts hosts policy start shuffled).Perm hosts ∧
    (policy = "sequential" → ordered_hosts hosts policy start shuffled = hosts) ∧
    (policy ∈ rrPolicies → ∃ s,
      ordered_hosts hosts policy start shuffled = hosts.drop s ++ hosts.take s) ∧
    (policy ∈ leastPolicies →
      ordered_hosts hosts policy start shuffled = shuffled) ∧
    (policy ∉ rrPolicies → policy ∉ leastPolicies →
      ordered_hosts hosts policy start shuffled = hosts) := by
  have hdisj : ∀ q ∈ rrPolicies, q ∉ leastPolicies := by decide
  refine ⟨?_, ?_, ?_, ?_, ?_⟩
  · unfold ordered_hosts
    by_cases h1 : policy ∈ rrPolicies ∧ hosts ≠ []
    · rw [if_pos h1]
      refine List.perm_append_comm.trans ?_
      rw [List.take_append_drop]
    · rw [if_neg h1]
      by_cases h2 : policy ∈ leastPolicies
      · rw [if_pos h2]; exact hshuf
      · rw [if_neg h2]
  · intro hp
    subst hp
    unfold ordered_hosts
    have hs1 : ("sequential" : String) ∉ rrPolicies := by decide
    have hs2 : ("sequential" : String) ∉ leastPolicies := by decide
    rw [if_neg (fun hc => hs1 hc.1), if_neg hs2]
  · intro hp
    by_cases hne : hosts = []
    · subst hne
      refine ⟨0, ?_⟩
      unfold ordered_hosts
      rw [if_neg (fun hc => hc.2 rfl), if_neg (hdisj policy hp)]
      simp
    · exact ⟨start, by unfold ordered_hosts; rw [if_pos ⟨hp, hne⟩]⟩
  · intro hp
    unfold ordered_hosts
    rw [if_neg (fun hc => hdisj policy hc.1 hp), if_pos hp]
  · intro h1 h2
    unfold ordered_hosts
    rw [if_neg (fun hc => h1 hc.1), if_neg h2]

/-- Witness for C9 at a concrete input (the `least-used` shuffle case and the
unknown-policy fallback packaged by the theorem). -/
theorem C9_host_policy_permutation_witness :
    (([(("db2" : String), (3306 : Nat)), (("db1" : String), (3307 : Nat))]).Perm
      [(("db1" : String), (3307 : Nat)), (("db2" : String), (3306 : Nat))]) ∧
    (ordered_hosts [(("db1" : String), (3307 : Nat)), (("db2" : String), (3306 : Nat))]
      "least-used" 0
      [(("db2" : String), (3306 : Nat)), (("db1" : String), (3307 : Nat))]).Perm
      [(("db1" : String), (3307 : Nat)), (("db2" : String), (3306 : Nat))] :=
  ⟨by decide,
    (C9_host_policy_permutation
      [(("db1" : String), (3307 : Nat)), (("db2" : String), (3306 : Nat))]
      "least-used" 0
      [(("db2" : String), (3306 : Nat)), (("db1" : String), (3307 : Nat))]
      (by decide)).1⟩

/-! ## Theorems: C8 (database connection failover) -/

theorem connectAttempts_none_iff {ok : DbHost → Bool} {l : List DbHost} {n : Nat} :
    (connectAttempts ok l n).1 = none ↔ ∀ h ∈ l, ok h = false := by
  induction l generalizing n with
  | nil => simp [connectAttempts]
  | cons h t ih =>
    by_cases hh : ok h = true
    · have heq : connectAttempts ok (h :: t) n = (some h, n + 1) := by
        simp only [connectAttempts]; rw [if_pos hh]
      rw [heq]
      simp only [Option.some_ne_none, false_iff]
      intro hall
      have := hall h (List.mem_cons_self h t)
      rw [this] at hh
      exact Bool.false_ne_true hh
    · have hh2 : ok h = false := by simpa using hh
      have heq : connectAttempts ok (h :: t) n = connectAttempts ok t (n + 1) := by
        simp only [connectAttempts]; rw [if_neg hh]
      rw [heq, ih]
      constructor
      · intro hall h2 hmem
        rcases List.mem_cons.mp hmem with rfl | hm
        · exact hh2
        · exact hall h2 hm
      · intro hall h2 hm
        exact hall h2 (List.mem_cons_of_mem _ hm)

theorem connectAttempts_none_count {ok : DbHost → Bool} {l : List DbHost} {n : Nat}
    (h : (connectAttempts ok l n).1 = none) :
    (connectAttempts ok l n).2 = n + l.length := by
  induction l generalizing n with
  | nil => simp [connectAttempts]
  | cons x t ih =>
    by_cases hx : ok x = true
    · exfalso
      have heq : connectAttempts ok (x :: t) n = (some x, n + 1) := by
        simp only [connectAttempts]; rw [if_pos hx]
      rw [heq] at h
      simp at h
    · have heq : connectAttempts ok (x :: t) n = connectAttempts ok t (n + 1) := by
        simp only [connectAttempts]; rw [if_neg hx]
      rw [heq] at h ⊢
      rw [ih h]
      simp [List.length_cons]
      omega

theorem connectAttempts_first_success {ok : DbHost → Bool} {l : List DbHost}
    {n i : Nat} (hi : i < l.length) (hok : ok (l.get ⟨i, hi⟩) = true)
    (hprev : ∀ j, (hj : j < i) → ok (l.get ⟨j, Nat.lt_trans hj hi⟩) = false) :
    connectAttempts ok l n = (some (l.get ⟨i, hi⟩), n + i + 1) := by
  induction l generalizing n i with
  | nil => simp at hi
  | cons x t ih =>
    cases i with
    | zero =>
      have hok0 : ok x = true := by simpa using hok
      have heq : connectAttempts ok (x :: t) n = (some x, n + 1) := by
        simp only [connectAttempts]; rw [if_pos hok0]
      rw [heq]
      simp
    | succ i0 =>
      have hx : ok x = false := by simpa using hprev 0 (Nat.succ_pos i0)
      have heq : connectAttempts ok (x :: t) n = connectAttempts ok t (n + 1) := by
        simp only [connectAttempts]
        rw [if_neg (by simp [hx])]
      rw [heq]
      have hi0 : i0 < t.length := Nat.lt_of_succ_lt_succ hi
      have hok0 : ok (t.get ⟨i0, hi0⟩) = true := by simpa using hok
      have hprev0 : ∀ j, (hj : j < i0) →
          ok (t.get ⟨j, Nat.lt_trans hj hi0⟩) = false := fun j hj => by
        simpa using hprev (j + 1) (Nat.succ_lt_succ hj)
      rw [ih hi0 hok0 hprev0]
      simp only [List.get_cons_succ, Prod.mk.injEq, true_and]
      omega

/-- C8: connecting attempts each candidate of the selected ordering in turn;
the exhaustion error (the code's `ConfigError("Unable to connect to any DB
host: ...")`, the spec's `ConnectionExhausted`) occurs exactly when every
candidate fails, in which case the number of attempts equals the number of
candidates; when candidate `i` is the first to accept, the connection
succeeds with exactly `i + 1` attempts — in particular three hosts of which
only the third accepts give a successful connection after exactly 3
attempts. -/
theorem C8_connect_failover (hosts : List DbHost) (policy : String) (start : Nat)
    (shuffled : List DbHost) (ok : DbHost → Bool) :
    ((connect hosts policy start shuffled ok).1 = none ↔
      ∀ h ∈ ordered_hosts hosts policy start shuffled, ok h = false) ∧
    ((connect hosts policy start shuffled ok).1 = none →
      (connect hosts policy start shuffled ok).2 =
        (ordered_hosts hosts policy start shuffled).length) ∧
    (∀ i, (hi : i < (ordered_hosts hosts policy start shuffled).length) →
      ok ((ordered_hosts hosts policy start shuffled).get ⟨i, hi⟩) = true →
      (∀ j, (hj : j < i) →
        ok ((ordered_hosts hosts policy start shuffled).get
          ⟨j, Nat.lt_trans hj hi⟩) = false) →
      connect hosts policy start shuffled ok =
        (some ((ordered_hosts hosts policy start shuffled).get ⟨i, hi⟩), i + 1)) := by
  refine ⟨connectAttempts_none_iff, ?_, ?_⟩
  · intro h
    have := connectAttempts_none_count (l := ordered_hosts hosts policy start shuffled)
      (n := 0) h
    simpa [connect] using this
  · intro i hi hok hprev
    have := connectAttempts_first_success (n := 0) hi hok hprev
    simpa [connect] using this

/-- Witness for C8: three configured hosts, only the third accepts; the
connection succeeds and exactly 3 attempts are made. -/
theorem C8_connect_failover_witness :
    connect [(("db1" : String), (3306 : Nat)), (("db2" : String), (3306 : Nat)),
        (("db3" : String), (3306 : Nat))] "sequential" 0 []
      (fun h => h.1 = "db3") = (some (("db3" : String), (3306 : Nat)), 3) := by
  have h := (C8_connect_failover
    [(("db1" : String), (3306 : Nat)), (("db2" : String), (3306 : Nat)),
      (("db3" : String), (3306 : Nat))] "sequential" 0 []
    (fun h => h.1 = "db3")).2.2 2 (by decide) (by decide)
    (by decide)
  simpa using h

/-! ## Theorems: C7 (request error classification) -/

/-- C7 (amended): a `CloudflareError` is raised if and only if the transport
fails, the body fails to parse as JSON, the HTTP status is at least 400, or
the parsed body's success flag is false or missing; the status/success-flag
error carries the status code and a message falling back to the body
truncated to 200 characters, and when none of these hold the parsed body is
returned unchanged.  (The code tests `resp.status_code >= 400`, not
"not 2xx".) -/
theorem C7_request_classification {α : Type} (tr : Except String (HttpResponse α)) :
    (∀ exc, tr = .error exc →
      request tr = .error (.requestFailed exc)) ∧
    (∀ resp, tr = .ok resp → resp.decoded = none →
      request tr = .error (.invalidResponse (truncate200 resp.text))) ∧
    (∀ resp body, tr = .ok resp → resp.decoded = some body →
      400 ≤ resp.status ∨ body.success.getD false = false →
      request tr = .error (.apiError resp.status
        (body.errors.getD (body.messages.getD (truncate200 resp.text))))) ∧
    (∀ resp body, tr = .ok resp → resp.decoded = some body →
      resp.status < 400 → body.success.getD false = true →
      request tr = .ok body) := by
  refine ⟨?_, ?_, ?_, ?_⟩
  · intro exc htr
    subst htr
    rfl
  · intro resp htr hdec
    subst htr
    simp [request, hdec]
  · intro resp body htr hdec hcond
    subst htr
    simp only [request, hdec]
    rw [if_pos hcond]
  · intro resp body htr hdec hst hsucc
    subst htr
    simp only [request, hdec]
    rw [if_neg]
    intro hcond
    rcases hcond with h4 | hf
    · omega
    · rw [hsucc] at hf
      exact absurd hf (by simp)

/-- Witness for C7 at a concrete input (a success-flag failure is
classified as an API error carrying the status and truncated message). -/
theorem C7_request_classification_witness :
    request (α := Nat) (.ok ⟨200, "oops", some ⟨some false, none, none, none, none⟩⟩) =
      .error (.apiError 200 "oops") := by
  have h := (C7_request_classification (α := Nat)
    (.ok ⟨200, "oops", some ⟨some false, none, none, none, none⟩⟩)).2.2.1
    ⟨200, "oops", some ⟨some false, none, none, none, none⟩⟩
    ⟨some false, none, none, none, none⟩ rfl rfl (Or.inr rfl)
  simpa [truncate200] using h

/-- Counterexample to C7 as stated: a response with HTTP status 301 (not
2xx) whose body parses and has a true success flag is returned unchanged —
no `CloudflareError` is raised although the status is not 2xx. -/
theorem C7_counterexample :
    request (α := Nat) (.ok ⟨301, "", some ⟨some true, none, none, some [], none⟩⟩) =
      .ok ⟨some true, none, none, some [], none⟩ ∧
    ¬(200 ≤ 301 ∧ 301 < 300) := by
  constructor
  · rfl
  · omega

/-! ## Theorems: C6 (pagination) -/

theorem request_ok {α : Type} {resp : HttpResponse α} {body : CFBody α}
    (hdec : resp.decoded = some body) (hst : resp.status < 400)
    (hsucc : body.success.getD false = true) :
    request (.ok resp) = .ok body := by
  simp only [request, hdec]
  rw [if_neg]
  intro hcond
  rcases hcond with h4 | hf
  · omega
  · rw [hsucc] at hf
    exact absurd hf (by simp)

theorem paginated_get_go_const {α : Type}
    (responses : Nat → Except String (HttpResponse α)) (per_page N : Nat)
    (r : Nat → List α)
    (hresp : ∀ p, 1 ≤ p → p ≤ N → ∃ resp, responses p = .ok resp ∧
      resp.status < 400 ∧ ∃ body, resp.decoded = some body ∧
      body.success = some true ∧ body.result = some (r p) ∧
      body.total_pages = some N) :
    ∀ fuel page acc log, 1 ≤ page → page ≤ N → N - page < fuel →
      paginated_get_go responses per_page fuel page acc log =
        (.ok (acc ++ ((List.range' page (N - page + 1)).map r).flatten),
          log ++ (List.range' page (N - page + 1)).map (fun p => (p, per_page))) := by
  intro fuel
  induction fuel with
  | zero => intro page acc log h1 h2 h3; omega
  | succ f ih =>
    intro page acc log h1 h2 h3
    obtain ⟨resp, hr, hst, body, hdec, hsucc, hres, htp⟩ := hresp page h1 h2
    have hreq : request (responses page) = .ok body := by
      rw [hr]
      exact request_ok hdec hst (by rw [hsucc]; rfl)
    simp only [paginated_get_go, hreq]
    rw [hres, htp]
    simp only [Option.getD_some]
    by_cases hpN : N = 0 ∨ N ≤ page
    · rcases hpN with h0 | hle
      · omega
      · have hpe : page = N := Nat.le_antisymm h2 hle
        rw [if_pos (Or.inr hle)]
        rw [← hpe, Nat.sub_self]
        simp [List.range'_one]
    · rw [if_neg hpN]
      push_neg at hpN
      have hk : N - page + 1 = (N - (page + 1) + 1) + 1 := by omega
      rw [ih (page + 1) (acc ++ r page) (log ++ [(page, per_page)])
        (by omega) (by omega) (by omega)]
      rw [hk]
      simp [List.range'_succ, List.append_assoc]

/-- C6 (amended): for a paginated list call whose responses consistently
report a total-page-count of N ≥ 1, the client issues exactly N page
requests — pages 1 through N, all at the same fixed page size — and returns
the concatenation of the N result arrays in page order; a first response
whose total-page-count is absent or zero yields exactly one request whose
result array is returned.  (The code re-reads the total-page-count from
every response, so only the count reported while the loop runs matters;
the claim's restriction to the first response alone does not hold.) -/
theorem C6_pagination {α : Type} (responses : Nat → Except String (HttpResponse α))
    (per_page fuel N : Nat) (r : Nat → List α) :
    (1 ≤ N → N ≤ fuel →
      (∀ p, 1 ≤ p → p ≤ N → ∃ resp, responses p = .ok resp ∧
        resp.status < 400 ∧ ∃ body, resp.decoded = some body ∧
        body.success = some true ∧ body.result = some (r p) ∧
        body.total_pages = some N) →
      paginated_get responses per_page fuel =
        (.ok (((List.range' 1 N).map r).flatten),
          (List.range' 1 N).map (fun p => (p, per_page)))) ∧
    (∀ resp body res1, 1 ≤ fuel → responses 1 = .ok resp →
      resp.status < 400 → resp.decoded = some body →
      body.success = some true → body.result = some res1 →
      body.total_pages.getD 0 = 0 →
      paginated_get responses per_page fuel = (.ok res1, [(1, per_page)])) := by
  constructor
  · intro hN hfuel hresp
    have h := paginated_get_go_const responses per_page N r hresp fuel 1 [] []
      (Nat.le_refl 1) hN (by omega)
    have hk : N - 1 + 1 = N := by omega
    rw [hk] at h
    simpa [paginated_get] using h
  · intro resp body res1 hfuel hr hst hdec hsucc hres htp
    cases fuel with
    | zero => omega
    | succ f =>
      have hreq : request (responses 1) = .ok body := by
        rw [hr]
        exact request_ok hdec hst (by rw [hsucc]; rfl)
      simp only [paginated_get, paginated_get_go, hreq]
      rw [hres, htp]
      simp

/-- Witness for C6: three consistent pages of one element each; exactly three
requests are issued and the concatenation is returned. -/
theorem C6_pagination_witness :
    paginated_get (α := Nat)
      (fun p => .ok ⟨200, "", some ⟨some true, none, none, some [p], some 3⟩⟩)
      50 3 = (.ok [1, 2, 3], [(1, 50), (2, 50), (3, 50)]) := by
  have h := (C6_pagination (α := Nat)
    (fun p => .ok ⟨200, "", some ⟨some true, none, none, some [p], some 3⟩⟩)
    50 3 3 (fun p => [p])).1 (by omega) (by omega)
    (fun p h1 h2 => ⟨_, rfl, by norm_num, _, rfl, rfl, rfl, rfl⟩)
  simpa using h

/-- Counterexample to C6 as stated: the first response reports 2 total
pages, but later responses report 3, and the client issues 3 requests —
the number of requests is not determined by the first response's
total-page-count. -/
theorem C6_counterexample :
    let rs : Nat → Except String (HttpResponse Nat) := fun p =>
      .ok ⟨200, "", some ⟨some true, none, none, some [p],
        some (if p = 1 then 2 else 3)⟩⟩
    (∃ resp body, rs 1 = .ok resp ∧ resp.decoded = some body ∧
      body.total_pages = some 2) ∧
    (paginated_get rs 50 10).2 = [(1, 50), (2, 50), (3, 50)] ∧
    (paginated_get rs 50 10).1 = .ok [1, 2, 3] := by
  refine ⟨⟨_, _, rfl, rfl, rfl⟩, rfl, rfl⟩

/-! ## Theorems: C1 (record replace semantics) -/

/-- The record rows persisted for local zone id `j`. -/
def recordsFor (st : Store) (j : Nat) : List RecordRow :=
  st.records.filter (fun r => r.zone_id = j)

/-- The load-balancer rows persisted for local zone id `j`. -/
def lbsFor (st : Store) (j : Nat) : List LBRow :=
  st.lbs.filter (fun r => r.zone_id = j)

theorem upsert_zone_records (st : Store) (aid : Nat) (zid : String) (z : CFZone) :
    (upsert_zone st aid zid z).2.records = st.records := by
  unfold upsert_zone
  cases st.zones.find? (fun r => r.cf_zone_id = zid) <;> rfl

theorem upsert_zone_lbs (st : Store) (aid : Nat) (zid : String) (z : CFZone) :
    (upsert_zone st aid zid z).2.lbs = st.lbs := by
  unfold upsert_zone
  cases st.zones.find? (fun r => r.cf_zone_id = zid) <;> rfl

theorem record_filter_ne_then_eq (l : List RecordRow) (i : Nat) :
    (l.filter (fun r => r.zone_id ≠ i)).filter (fun r => r.zone_id = i) = [] := by
  induction l with
  | nil => rfl
  | cons a t ih =>
    by_cases h : a.zone_id = i
    · simp [List.filter_cons, h, ih]
    · simp [List.filter_cons, h, ih]

theorem record_filter_ne_then_other (l : List RecordRow) {i j : Nat} (h : j ≠ i) :
    (l.filter (fun r => r.zone_id ≠ i)).filter (fun r => r.zone_id = j) =
      l.filter (fun r => r.zone_id = j) := by
  rw [List.filter_filter]
  apply List.filter_congr
  intro a _
  by_cases hj : a.zone_id = j
  · have hi : a.zone_id ≠ i := by rw [hj]; exact h
    simp [hj, hi, h]
  · simp [hj]

theorem record_block_filter_eq (i : Nat) (R : List CFRecord) :
    (R.map (mkRecordRow i)).filter (fun r => r.zone_id = i) =
      R.map (mkRecordRow i) := by
  rw [List.filter_eq_self]
  intro a ha
  obtain ⟨x, _, hx⟩ := List.mem_map.mp ha
  subst hx
  simp [mkRecordRow]

theorem record_block_filter_other (i : Nat) {j : Nat} (h : j ≠ i)
    (R : List CFRecord) :
    (R.map (mkRecordRow i)).filter (fun r => r.zone_id = j) = [] := by
  rw [List.filter_eq_nil_iff]
  intro a ha
  obtain ⟨x, _, hx⟩ := List.mem_map.mp ha
  subst hx
  simp [mkRecordRow]
  exact fun hc => h hc.symm

/-- C1 (amended): in the single-user engine, one sync of a zone leaves
exactly the freshly fetched rows `R` as the persisted record set for that
zone — all pre-existing record rows for the zone are removed and `R` is
inserted within the same zone transaction, other zones' rows being
untouched.  The multi-user engine (`sync_cloudflare_records_multi_user.py`)
instead upserts each fetched record keyed on its provider id and deletes
nothing, so records absent from the provider response survive
(see the counterexample). -/
theorem C1_replace_semantics (st : Store) (aid : Nat) (zid : String) (z : CFZone)
    (R : List CFRecord) (B : List CFBalancer) :
    ∃ st2,
      sync_zone st aid zid z (.ok R) B = .ok (st2, R.length, B.length) ∧
      recordsFor st2 (upsert_zone st aid zid z).1 =
        R.map (mkRecordRow (upsert_zone st aid zid z).1) ∧
      ∀ j, j ≠ (upsert_zone st aid zid z).1 →
        recordsFor st2 j = recordsFor st j := by
  refine ⟨replace_zone_load_balancers
    (replace_zone_records (upsert_zone st aid zid z).2
      (upsert_zone st aid zid z).1 R) (upsert_zone st aid zid z).1 B, rfl, ?_, ?_⟩
  · unfold recordsFor replace_zone_load_balancers replace_zone_records
    simp only []
    rw [List.filter_append, upsert_zone_records]
    rw [record_filter_ne_then_eq, record_block_filter_eq]
    rfl
  · intro j hj
    unfold recordsFor replace_zone_load_balancers replace_zone_records
    simp only []
    rw [List.filter_append, upsert_zone_records]
    rw [record_filter_ne_then_other _ hj, record_block_filter_other _ hj]
    rw [List.append_nil]

/-- A concrete zone payload for the C1 witness. -/
def zoneW : CFZone :=
  ⟨some "z1", some "example.com", some "active", false, some "full", none, none⟩

/-- A concrete record payload for the C1 witness. -/
def recW (n : String) : CFRecord :=
  ⟨some n, some "A", some "a.example.com", some "1.2.3.4", some 300, none, none,
    .absent, none⟩

/-- A concrete starting store holding 5 records for zone `z1` (local id 1). -/
def storeW : Store where
  accounts := [⟨1, "acct", "Cloudflare"⟩]
  zones := [⟨1, 1, "z1", some "example.com", some "active", 0, some "full", none⟩]
  records :=
    [mkRecordRow 1 (recW "r1"), mkRecordRow 1 (recW "r2"), mkRecordRow 1 (recW "r3"),
      mkRecordRow 1 (recW "r4"), mkRecordRow 1 (recW "r5")]
  lbs := []
  nextAccountId := 2
  nextZoneId := 2

/-- Witness for C1: a zone holding 5 records, re-synced when the provider
returns 3, ends with exactly those 3 records persisted. -/
theorem C1_replace_semantics_witness :
    ∃ st2,
      sync_zone storeW 1 "z1" zoneW (.ok [recW "r1", recW "r2", recW "r3"]) [] =
        .ok (st2, 3, 0) ∧
      recordsFor st2 1 = [recW "r1", recW "r2", recW "r3"].map (mkRecordRow 1) ∧
      recordsFor st2 2 = recordsFor storeW 2 := by
  obtain ⟨st2, h1, h2, h3⟩ :=
    C1_replace_semantics storeW 1 "z1" zoneW [recW "r1", recW "r2", recW "r3"] []
  have hid : (upsert_zone storeW 1 "z1" zoneW).1 = 1 := by decide
  refine ⟨st2, by simpa using h1, ?_, ?_⟩
  · rw [hid] at h2
    exact h2
  · have hne : (2 : Nat) ≠ (upsert_zone storeW 1 "z1" zoneW).1 := by decide
    exact h3 2 hne

/-- A concrete multi-user record payload. -/
def muRecW (n : String) : CFRecord :=
  ⟨some n, some "A", some "a.example.com", some "9.9.9.9", some 120, none, none,
    .absent, none⟩

/-- A concrete multi-user store holding 5 records for zone `z1`. -/
def muStoreW : MUStore where
  accounts := [⟨1, "acct", "Account acct"⟩]
  zones := [⟨1, "z1", 1, "example.com", "active"⟩]
  records :=
    [⟨"r1", 1, "a", "A", "1.1.1.1", 300, false, 0⟩,
      ⟨"r2", 1, "b", "A", "1.1.1.2", 300, false, 0⟩,
      ⟨"r3", 1, "c", "A", "1.1.1.3", 300, false, 0⟩,
      ⟨"r4", 1, "d", "A", "1.1.1.4", 300, false, 0⟩,
      ⟨"r5", 1, "e", "A", "1.1.1.5", 300, false, 0⟩]
  credStatus := []
  nextAccountId := 2
  nextZoneId := 2

/-- Counterexample to C1 as stated: in the multi-user engine
(`sync_cloudflare_account`'s record loop, cited by the claim), a zone holding
5 records that is re-synced when the provider returns 3 still ends with 5
persisted records — the 2 stale ones survive — although the sync reports
zero errors. -/
theorem C1_counterexample :
    (mu_sync_zone muStoreW 1 none
      (fun _ => .ok [muRecW "r1", muRecW "r2", muRecW "r3"])
      ⟨some "z1", some "example.com", some "active", false, none, none, none⟩).2.2.2 = 0 ∧
    ((mu_sync_zone muStoreW 1 none
      (fun _ => .ok [muRecW "r1", muRecW "r2", muRecW "r3"])
      ⟨some "z1", some "example.com", some "active", false, none, none, none⟩).1.records.filter
        (fun r => r.cf_zone_id = 1)).length = 5 ∧
    (mu_sync_zone muStoreW 1 none
      (fun _ => .ok [muRecW "r1", muRecW "r2", muRecW "r3"])
      ⟨some "z1", some "example.com", some "active", false, none, none, none⟩).1.records.any
        (fun r => r.cf_record_id = "r4") = true := by
  decide

/-! ## Theorems: C4 (decryption failure is confined to its credential) -/

/-- The sync-status columns recorded for credential `cid` (`none` when the
table has no such row). -/
def statusLookup : List CredStatusRow → Nat → Option (Option String × Option String)
  | [], _ => none
  | r :: t, cid =>
    if r.id = cid then some (r.last_sync_status, r.last_sync_error)
    else statusLookup t cid

/-- The sync status recorded for credential `cid` in the store. -/
def credStatusOf (st : MUStore) (cid : Nat) : Option (Option String × Option String) :=
  statusLookup st.credStatus cid

theorem statusLookup_update_other {l : List CredStatusRow} {c1 c2 : Nat}
    (h : c1 ≠ c2) (s : String) (e : Option String) :
    statusLookup (l.map (fun r =>
      if r.id = c2 then { r with last_sync_status := some s, last_sync_error := e }
      else r)) c1 = statusLookup l c1 := by
  induction l with
  | nil => rfl
  | cons a t ih =>
    simp only [List.map_cons, statusLookup]
    by_cases ha : a.id = c2
    · have ha1 : a.id ≠ c1 := by rw [ha]; exact fun hc => h hc.symm
      rw [if_pos ha, if_neg ha1, if_neg ha1]
      exact ih
    · rw [if_neg ha]
      by_cases hb : a.id = c1
      · rw [if_pos hb, if_pos hb]
      · rw [if_neg hb, if_neg hb]
        exact ih

theorem statusLookup_update_self {l : List CredStatusRow} {c : Nat}
    (s : String) (e : Option String) :
    statusLookup (l.map (fun r =>
      if r.id = c then { r with last_sync_status := some s, last_sync_error := e }
      else r)) c = (statusLookup l c).map (fun _ => (some s, e)) := by
  induction l with
  | nil => rfl
  | cons a t ih =>
    simp only [List.map_cons, statusLookup]
    by_cases ha : a.id = c
    · rw [if_pos ha, if_pos ha, if_pos ha]
      rfl
    · rw [if_neg ha, if_neg ha, if_neg ha]
      exact ih

theorem mu_sync_record_credStatus (st : MUStore) (zid : String) (r : CFRecord) :
    (mu_sync_record st zid r).1.credStatus = st.credStatus := by
  unfold mu_sync_record
  by_cases h : (truthy r.rid && truthy r.name && truthy r.rtype &&
      truthy r.content) = false
  · rw [if_pos h]
  · rw [if_neg h]
    cases st.zones.find? (fun z => z.cf_zone_id = zid) <;> rfl

theorem mu_record_fold_credStatus (zid : String) (records : List CFRecord) :
    ∀ start : MUStore × Nat × Nat,
      (records.foldl
        (fun acc r =>
          ((mu_sync_record acc.1 zid r).1,
            acc.2.1 + (mu_sync_record acc.1 zid r).2.1,
            acc.2.2 + (mu_sync_record acc.1 zid r).2.2)) start).1.credStatus =
      start.1.credStatus := by
  induction records with
  | nil => intro start; rfl
  | cons r t ih =>
    intro start
    rw [List.foldl_cons, ih]
    exact mu_sync_record_credStatus start.1 zid r

theorem mu_sync_zone_credStatus (st : MUStore) (acct : Nat) (dom : Option String)
    (recordsOf : String → Except String (List CFRecord)) (z : CFZone) :
    (mu_sync_zone st acct dom recordsOf z).1.credStatus = st.credStatus := by
  unfold mu_sync_zone
  by_cases h1 : truthy dom ∧ z.name ≠ dom
  · rw [if_pos h1]
  · rw [if_neg h1]
    by_cases h2 : (truthy z.id && truthy z.name) = false
    · rw [if_pos h2]
    · rw [if_neg h2]
      have hz : ∀ nm stt, (mu_upsert_zone st (z.id.getD "") acct nm stt).credStatus =
          st.credStatus := by
        intro nm stt
        unfold mu_upsert_zone
        by_cases hex : st.zones.any (fun r => r.cf_zone_id = z.id.getD "")
        · rw [if_pos hex]
        · rw [if_neg hex]
      cases hrec : recordsOf (z.id.getD "") with
      | error e => exact hz _ _
      | ok records =>
        rw [mu_record_fold_credStatus]
        exact hz _ _

theorem mu_zone_fold_credStatus (acct : Nat) (dom : Option String)
    (recordsOf : String → Except String (List CFRecord)) (zones : List CFZone) :
    ∀ start : MUStore × Nat × Nat × Nat,
      (zones.foldl
        (fun acc z =>
          ((mu_sync_zone acc.1 acct dom recordsOf z).1,
            acc.2.1 + (mu_sync_zone acc.1 acct dom recordsOf z).2.1,
            acc.2.2.1 + (mu_sync_zone acc.1 acct dom recordsOf z).2.2.1,
            acc.2.2.2 + (mu_sync_zone acc.1 acct dom recordsOf z).2.2.2))
        start).1.credStatus = start.1.credStatus := by
  induction zones with
  | nil => intro start; rfl
  | cons z t ih =>
    intro start
    rw [List.foldl_cons, ih]
    exact mu_sync_zone_credStatus start.1 acct dom recordsOf z

theorem sync_cloudflare_account_ok_credStatus {st st2 : MUStore}
    {cf_account_id : String} {cf_domain : Option String}
    {credential_id : Option Nat} {zonesR : Except String (List CFZone)}
    {recordsOf : String → Except String (List CFRecord)} {x : Nat × Nat × Nat}
    (h : sync_cloudflare_account st cf_account_id cf_domain credential_id
      zonesR recordsOf = .ok (st2, x)) :
    st2.credStatus = st.credStatus := by
  unfold sync_cloudflare_account at h
  have hacct : ∀ a, (mu_get_or_create_account st a).2.credStatus = st.credStatus := by
    intro a
    unfold mu_get_or_create_account
    cases st.accounts.find? (fun r => r.cf_account_id = a) <;> rfl
  cases zonesR with
  | error e => simp at h
  | ok zones =>
    rw [Except.ok.injEq] at h
    have hfold := mu_zone_fold_credStatus (mu_get_or_create_account st cf_account_id).1
      cf_domain recordsOf zones ((mu_get_or_create_account st cf_account_id).2, 0, 0, 0)
    have hst2 : st2 = (zones.foldl
        (fun acc z =>
          ((mu_sync_zone acc.1 (mu_get_or_create_account st cf_account_id).1
              cf_domain recordsOf z).1,
            acc.2.1 + (mu_sync_zone acc.1 (mu_get_or_create_account st cf_account_id).1
              cf_domain recordsOf z).2.1,
            acc.2.2.1 + (mu_sync_zone acc.1 (mu_get_or_create_account st cf_account_id).1
              cf_domain recordsOf z).2.2.1,
            acc.2.2.2 + (mu_sync_zone acc.1 (mu_get_or_create_account st cf_account_id).1
              cf_domain recordsOf z).2.2.2))
        ((mu_get_or_create_account st cf_account_id).2, 0, 0, 0)).1 := by
      rw [h]
    rw [hst2, hfold, hacct]

/-- C4 (amended): a credential whose stored secret fails to decrypt is
skipped at load time — it never becomes a sync unit, its sync-status columns
are left untouched (not set to `failed`), and only the decryption failure is
logged; the other credential still loads and syncs, and its status is
recorded as `success`. -/
theorem C4_credential_isolation
    (cipher : List Nat → List Nat → List Nat → Option String)
    (r1 r2 : CredRow) (st st2 : MUStore) (errs zs rs : Nat) (e k : String)
    (zonesOfU : Nat → Except String (List CFZone))
    (recordsOfU : Nat → String → Except String (List CFRecord))
    (he1 : r1.enabled = true) (ha1 : r1.auto_sync = true)
    (he2 : r2.enabled = true) (ha2 : r2.auto_sync = true)
    (hne : r1.id ≠ r2.id)
    (hdec1 : decrypt_api_key cipher r1.cf_api_key = .error e)
    (hdec2 : decrypt_api_key cipher r2.cf_api_key = .ok k)
    (hsync : sync_cloudflare_account st r2.cf_account_id r2.cf_domain (some r2.id)
      (zonesOfU r2.id) (recordsOfU r2.id) = .ok (st2, zs, rs, 0)) :
    ((load_user_credentials cipher [r1, r2]).map (fun c => c.id) = [r2.id]) ∧
    mu_user_loop zonesOfU recordsOfU st errs (load_user_credentials cipher [r1, r2]) =
      (update_credential_sync_status st2 r2.id "success" none, errs) ∧
    credStatusOf (mu_user_loop zonesOfU recordsOfU st errs
      (load_user_credentials cipher [r1, r2])).1 r1.id = credStatusOf st r1.id ∧
    credStatusOf (update_credential_sync_status st2 r2.id "success" none) r2.id =
      (credStatusOf st2 r2.id).map (fun _ => (some "success", none)) := by
  have hload : load_user_credentials cipher [r1, r2] =
      [{ id := r2.id, user_id := r2.user_id, account_id := r2.account_id,
          cf_email := r2.cf_email, cf_api_key := k,
          cf_account_id := r2.cf_account_id, cf_domain := r2.cf_domain,
          cf_api_url :=
            match r2.cf_api_url with
            | some u => if u = "" then DEFAULT_CF_API else u
            | none => DEFAULT_CF_API,
          enabled := r2.enabled, auto_sync := r2.auto_sync }] := by
    unfold load_user_credentials
    simp [List.filter_cons, List.filter_nil, he1, ha1, he2, ha2,
      List.filterMap_cons, List.filterMap_nil, hdec1, hdec2]
  have hloop : mu_user_loop zonesOfU recordsOfU st errs
      (load_user_credentials cipher [r1, r2]) =
      (update_credential_sync_status st2 r2.id "success" none, errs) := by
    rw [hload]
    unfold mu_user_loop
    rw [hsync]
    unfold mu_user_loop
    simp
  refine ⟨by rw [hload]; rfl, hloop, ?_, ?_⟩
  · rw [hloop]
    have h1 : credStatusOf (update_credential_sync_status st2 r2.id "success" none)
        r1.id = credStatusOf st2 r1.id := by
      unfold credStatusOf update_credential_sync_status
      exact statusLookup_update_other hne "success" none
    rw [h1]
    unfold credStatusOf
    rw [sync_cloudflare_account_ok_credStatus hsync]
  · unfold credStatusOf update_credential_sync_status
    exact statusLookup_update_self "success" none

/-- A credential row whose stored secret is malformed (not `iv:tag:ct`). -/
def credRowBad : CredRow :=
  ⟨1, 10, 100, "u1@example.com", "zz", "acct1", none, none, true, true⟩

/-- A credential row whose stored secret decrypts under the test cipher. -/
def credRowGood : CredRow :=
  ⟨2, 20, 200, "u2@example.com", "aa:bb:cc", "acct2", none, none, true, true⟩

/-- A store whose credential table holds both rows with NULL sync status. -/
def muStoreC4 : MUStore :=
  ⟨[], [], [], [⟨1, none, none⟩, ⟨2, none, none⟩], 1, 1⟩

/-- Witness for C4 at a concrete input: with two enabled credentials where
the first one's secret fails to decrypt, only the second is loaded and the
user loop ends in the success-status update for it. -/
theorem C4_credential_isolation_witness :
    ((load_user_credentials (fun _ _ _ => some "KEY") [credRowBad, credRowGood]).map
      (fun c => c.id) = [2]) ∧
    credStatusOf (mu_user_loop (fun _ => .ok []) (fun _ _ => .ok []) muStoreC4 0
      (load_user_credentials (fun _ _ _ => some "KEY") [credRowBad, credRowGood])).1 1 =
      credStatusOf muStoreC4 1 := by
  have h := C4_credential_isolation (fun _ _ _ => some "KEY") credRowBad credRowGood
    muStoreC4 ⟨[⟨1, "acct2", "Account acct2"⟩], [], [], [⟨1, none, none⟩, ⟨2, none, none⟩], 2, 1⟩
    0 0 0 "Invalid encrypted data format" "KEY"
    (fun _ => .ok []) (fun _ _ => .ok [])
    rfl rfl rfl rfl (by decide) rfl rfl rfl
  exact ⟨h.1, h.2.2.1⟩

/-- Counterexample to C4 as stated: with two enabled credentials where the
first one's secret fails to decrypt, the second still syncs (status
`success`) and the run ends with zero errors, but the first credential's
last-sync status is left untouched (`NULL`), not recorded as `failed` with a
non-empty error message — the decrypt-failed row is silently skipped at load
time. -/
theorem C4_counterexample :
    decrypt_api_key (fun _ _ _ => some "KEY") credRowBad.cf_api_key =
      .error "Invalid encrypted data format" ∧
    credStatusOf (mu_user_loop (fun _ => .ok []) (fun _ _ => .ok []) muStoreC4 0
      (load_user_credentials (fun _ _ _ => some "KEY") [credRowBad, credRowGood])).1 1 =
      some (none, none) ∧
    credStatusOf (mu_user_loop (fun _ => .ok []) (fun _ _ => .ok []) muStoreC4 0
      (load_user_credentials (fun _ _ _ => some "KEY") [credRowBad, credRowGood])).1 2 =
      some (some "success", none) ∧
    (mu_user_loop (fun _ => .ok []) (fun _ _ => .ok []) muStoreC4 0
      (load_user_credentials (fun _ _ _ => some "KEY") [credRowBad, credRowGood])).2 = 0 := by
  refine ⟨rfl, rfl, rfl, rfl⟩

/-! ## Theorems: C5 (process exit semantics) -/

theorem exit_iff_zero (n : Nat) : ((if n = 0 then (0 : Nat) else 1) = 0) ↔ n = 0 := by
  by_cases h : n = 0 <;> simp [h]

/-- C5 (amended): the multi-user sync exits 0 if and only if the run
recorded zero errors; the single-user sync exits non-zero on configuration
or connection failure, but whenever `sync_accounts` returns (zone and
account errors are contained and not counted there) its `main` returns 0 —
even when zones failed — so for the single-user script a zone error does not
make the exit code non-zero (see the counterexample). -/
theorem C5_exit_code :
    (∀ (st : MUStore) (globalCfg : Option (Except String (List String)))
      (zonesOfG : String → Except String (List CFZone))
      (recordsOfG : String → Except String (List CFRecord))
      (skipUsers : Bool) (credRows : List CredRow)
      (cipher : List Nat → List Nat → List Nat → Option String)
      (zonesOfU : Nat → Except String (List CFZone))
      (recordsOfU : Nat → String → Except String (List CFRecord)),
      ((mu_main st globalCfg zonesOfG recordsOfG skipUsers credRows cipher
          zonesOfU recordsOfU).1 = 0 ↔
        (mu_main st globalCfg zonesOfG recordsOfG skipUsers credRows cipher
          zonesOfU recordsOfU).2.1 = 0)) ∧
    (∀ (st : Store) (account_ids : List String)
      (zonesOf : String → Except String (List CFZone))
      (recordsOf : String → Except SyncErr (List CFRecord))
      (lbsOf : String → List CFBalancer) (x : Store × Summary),
      sync_accounts st account_ids zonesOf recordsOf lbsOf = .ok x →
      su_main true true st account_ids zonesOf recordsOf lbsOf = 0) := by
  constructor
  · intro st g zg rg su cr ci zu ru
    unfold mu_main
    exact exit_iff_zero _
  · intro st ids zonesOf recordsOf lbsOf x h
    unfold su_main
    simp [h]

/-- Witness for C5: a run with no account ids returns exit code 0 through
`sync_accounts` succeeding. -/
theorem C5_exit_code_witness :
    su_main true true ⟨[], [], [], [], 1, 1⟩ [] (fun _ => .error "boom")
      (fun _ => .error (.cf "boom")) (fun _ => []) = 0 :=
  C5_exit_code.2 _ _ _ _ _ (⟨[], [], [], [], 1, 1⟩, ⟨0, 0, 0⟩) rfl

/-- A concrete zone whose record fetch will fail. -/
def zoneB5 : CFZone :=
  ⟨some "zb", some "b.example.com", some "active", false, none, none, none⟩

/-- Counterexample to C5 as stated: in the single-user script a zone's
record fetch fails with a provider error (the zone is rolled back and not
counted in the summary), yet `main` exits 0 — a zone error does not make the
exit code non-zero. -/
theorem C5_counterexample :
    (fun zid => if zid = "zb"
      then (.error (.cf "Cloudflare API error 500") : Except SyncErr (List CFRecord))
      else .ok []) "zb" = .error (.cf "Cloudflare API error 500") ∧
    sync_accounts ⟨[], [], [], [], 1, 1⟩ ["acct"] (fun _ => .ok [zoneB5])
      (fun zid => if zid = "zb"
        then .error (.cf "Cloudflare API error 500") else .ok [])
      (fun _ => []) = .ok (⟨[⟨1, "acct", "Cloudflare"⟩], [], [], [], 2, 1⟩, ⟨0, 0, 0⟩) ∧
    su_main true true ⟨[], [], [], [], 1, 1⟩ ["acct"] (fun _ => .ok [zoneB5])
      (fun zid => if zid = "zb"
        then .error (.cf "Cloudflare API error 500") else .ok [])
      (fun _ => []) = 0 := by
  refine ⟨rfl, rfl, rfl⟩

/-! ## Theorems: C3 (per-zone failure containment) -/

theorem mkRecordRow_zone_id (i : Nat) (r : CFRecord) :
    (mkRecordRow i r).zone_id = i := rfl

theorem mkLBRow_zone_id (i : Nat) (b : CFBalancer) :
    (mkLBRow i b).zone_id = i := rfl

theorem record_block_filter_keep {i j : Nat} (h : i ≠ j) (R : List CFRecord) :
    (R.map (mkRecordRow i)).filter (fun r => r.zone_id ≠ j) =
      R.map (mkRecordRow i) := by
  rw [List.filter_eq_self]
  intro a ha
  obtain ⟨x, _, hx⟩ := List.mem_map.mp ha
  subst hx
  simp [mkRecordRow_zone_id, h]

theorem lb_block_filter_keep {i j : Nat} (h : i ≠ j) (B : List CFBalancer) :
    (B.map (mkLBRow i)).filter (fun r => r.zone_id ≠ j) = B.map (mkLBRow i) := by
  rw [List.filter_eq_self]
  intro a ha
  obtain ⟨x, _, hx⟩ := List.mem_map.mp ha
  subst hx
  simp [mkLBRow_zone_id, h]

/-- C3 (amended): in the single-user engine, a provider error
(`CloudflareError`) raised while syncing one zone causes that zone's
transaction to be rolled back — no rows for that zone are committed — and
processing continues with the next zone: zones processed earlier and later
in the same account still commit; a non-provider exception instead aborts
the remainder of the run (see the counterexample).  The single-user summary
has no error counter; in the multi-user engine a zone-level record-fetch
failure increments the run's error counter by exactly one (second
conjunct), with the zone row itself already committed. -/
theorem C3_zone_failure_containment :
    (∀ (ia ib ic : String) (A B C : CFZone) (RA RC : List CFRecord) (m : String)
      (lbsOf : String → List CFBalancer)
      (recordsOf : String → Except SyncErr (List CFRecord))
      (zonesOf : String → Except String (List CFZone)),
      ia ≠ "" → ib ≠ "" → ic ≠ "" → ia ≠ ib → ia ≠ ic → ib ≠ ic →
      A.id = some ia → B.id = some ib → C.id = some ic →
      A.account = none → B.account = none → C.account = none →
      recordsOf ia = .ok RA → recordsOf ib = .error (.cf m) →
      recordsOf ic = .ok RC →
      zonesOf "acct" = .ok [A, B, C] →
      sync_accounts ⟨[], [], [], [], 1, 1⟩ ["acct"] zonesOf recordsOf lbsOf =
        .ok
          (⟨[⟨1, "acct", "Cloudflare"⟩],
            [mkZoneRow 1 1 ia A, mkZoneRow 2 1 ic C],
            RA.map (mkRecordRow 1) ++ RC.map (mkRecordRow 2),
            (lbsOf ia).map (mkLBRow 1) ++ (lbsOf ic).map (mkLBRow 2),
            2, 3⟩,
          ⟨2, RA.length + RC.length, (lbsOf ia).length + (lbsOf ic).length⟩)) ∧
    (∀ (st : MUStore) (acct : Nat)
      (recordsOf : String → Except String (List CFRecord)) (z : CFZone)
      (e : String),
      truthy z.id = true → truthy z.name = true →
      recordsOf (z.id.getD "") = .error e →
      mu_sync_zone st acct none recordsOf z =
        (mu_upsert_zone st (z.id.getD "") acct (z.name.getD "")
          (z.status.getD "active"), 1, 0, 1)) := by
  constructor
  · intro ia ib ic A B C RA RC m lbsOf recordsOf zonesOf hia hib hic hab hac hbc
      hA hB hC haA haB haC hrA hrB hrC hzs
    unfold sync_accounts
    simp only [syncAccountsGo, hzs]
    simp only [syncZonesLoop, hA, hB, hC, hia, hib, hic, if_false,
      acctKeyOf, acctNameOf, haA, haB, haC]
    simp only [upsert_account, List.find?_nil, List.find?_cons]
    simp only [sync_zone, hrA, hrB, hrC]
    simp only [upsert_zone, List.find?_nil, List.find?_cons,
      replace_zone_records, replace_zone_load_balancers]
    simp [mkZoneRow, hab, hac, hbc]
    constructor
    · intro a _
      simp [mkRecordRow_zone_id]
    · intro a _
      simp [mkLBRow_zone_id]
  · intro st acct recordsOf z e hid hname hrec
    unfold mu_sync_zone
    rw [if_neg (by simp [truthy])]
    rw [if_neg (by simp [hid, hname])]
    rw [hrec]

/-- Concrete zones for the C3 witness and counterexample. -/
def zoneA3 : CFZone :=
  ⟨some "za", some "a.example.com", some "active", false, none, none, none⟩

/-- Concrete zone B (its record fetch is made to fail). -/
def zoneB3 : CFZone :=
  ⟨some "zb", some "b.example.com", some "active", false, none, none, none⟩

/-- Concrete zone C, processed after the failing zone. -/
def zoneC3 : CFZone :=
  ⟨some "zc", some "c.example.com", some "active", false, none, none, none⟩

/-- Witness for C3: zone B's record fetch raises a provider error; zones A
and C in the same account still commit and B leaves no rows. -/
theorem C3_zone_failure_containment_witness :
    sync_accounts ⟨[], [], [], [], 1, 1⟩ ["acct"]
      (fun _ => .ok [zoneA3, zoneB3, zoneC3])
      (fun zid => if zid = "za" then .ok [recW "a1"]
        else if zid = "zb" then .error (.cf "Cloudflare API error 500")
        else .ok [recW "c1"])
      (fun _ => []) =
      .ok
        (⟨[⟨1, "acct", "Cloudflare"⟩],
          [mkZoneRow 1 1 "za" zoneA3, mkZoneRow 2 1 "zc" zoneC3],
          [recW "a1"].map (mkRecordRow 1) ++ [recW "c1"].map (mkRecordRow 2),
          ([] : List CFBalancer).map (mkLBRow 1) ++
            ([] : List CFBalancer).map (mkLBRow 2),
          2, 3⟩,
        ⟨2, [recW "a1"].length + [recW "c1"].length,
          ([] : List CFBalancer).length + ([] : List CFBalancer).length⟩) := by
  exact C3_zone_failure_containment.1 "za" "zb" "zc" zoneA3 zoneB3 zoneC3
    [recW "a1"] [recW "c1"] "Cloudflare API error 500" (fun _ => [])
    (fun zid => if zid = "za" then .ok [recW "a1"]
      else if zid = "zb" then .error (.cf "Cloudflare API error 500")
      else .ok [recW "c1"])
    (fun _ => .ok [zoneA3, zoneB3, zoneC3])
    (by decide) (by decide) (by decide) (by decide) (by decide) (by decide)
    rfl rfl rfl rfl rfl rfl rfl rfl rfl rfl

/-- Counterexample to C3 as stated: a non-provider exception (e.g. a
database failure) while syncing zone B is NOT contained — `sync_accounts`
aborts, so zone C (later in the same account) never commits; the final
store holds only zone A's rows. -/
theorem C3_counterexample :
    sync_accounts ⟨[], [], [], [], 1, 1⟩ ["acct"]
      (fun _ => .ok [zoneA3, zoneB3, zoneC3])
      (fun zid => if zid = "za" then .ok [recW "a1"]
        else if zid = "zb" then .error (.other "db connection lost")
        else .ok [recW "c1"])
      (fun _ => []) =
      .error
        (⟨[⟨1, "acct", "Cloudflare"⟩], [mkZoneRow 1 1 "za" zoneA3],
          [mkRecordRow 1 (recW "a1")], [], 2, 2⟩, "db connection lost") ∧
    (fun zid => if zid = "za"
      then (.ok [recW "a1"] : Except SyncErr (List CFRecord))
      else if zid = "zb" then .error (.other "db connection lost")
      else .ok [recW "c1"]) "zb" = .error (.other "db connection lost") := by
  refine ⟨rfl, rfl⟩

/-! ## Theorems: C2 (re-run idempotence) — supporting lemmas -/

theorem lb_filter_ne_then_eq (l : List LBRow) (i : Nat) :
    (l.filter (fun r => r.zone_id ≠ i)).filter (fun r => r.zone_id = i) = [] := by
  induction l with
  | nil => rfl
  | cons a t ih =>
    by_cases h : a.zone_id = i
    · simp [List.filter_cons, h, ih]
    · simp [List.filter_cons, h, ih]

theorem lb_filter_ne_then_other (l : List LBRow) {i j : Nat} (h : j ≠ i) :
    (l.filter (fun r => r.zone_id ≠ i)).filter (fun r => r.zone_id = j) =
      l.filter (fun r => r.zone_id = j) := by
  rw [List.filter_filter]
  apply List.filter_congr
  intro a _
  by_cases hj : a.zone_id = j
  · have hi : a.zone_id ≠ i := by rw [hj]; exact h
    simp [hj, hi, h]
  · simp [hj]

theorem lb_block_filter_eq (i : Nat) (B : List CFBalancer) :
    (B.map (mkLBRow i)).filter (fun r => r.zone_id = i) = B.map (mkLBRow i) := by
  rw [List.filter_eq_self]
  intro a ha
  obtain ⟨x, _, hx⟩ := List.mem_map.mp ha
  subst hx
  simp [mkLBRow]

theorem lb_block_filter_other (i : Nat) {j : Nat} (h : j ≠ i) (B : List CFBalancer) :
    (B.map (mkLBRow i)).filter (fun r => r.zone_id = j) = [] := by
  rw [List.filter_eq_nil_iff]
  intro a ha
  obtain ⟨x, _, hx⟩ := List.mem_map.mp ha
  subst hx
  simp [mkLBRow]
  exact fun hc => h hc.symm

theorem record_split_perm (l : List RecordRow) (i : Nat) :
    (l.filter (fun r => r.zone_id ≠ i) ++ l.filter (fun r => r.zone_id = i)).Perm l := by
  have h := List.filter_append_perm (fun r => decide (r.zone_id ≠ i)) l
  have hc : l.filter (fun r => !decide (r.zone_id ≠ i)) =
      l.filter (fun r => r.zone_id = i) := by
    apply List.filter_congr
    intro a _
    by_cases ha : a.zone_id = i <;> simp [ha]
  rw [hc] at h
  exact h

theorem lb_split_perm (l : List LBRow) (i : Nat) :
    (l.filter (fun r => r.zone_id ≠ i) ++ l.filter (fun r => r.zone_id = i)).Perm l := by
  have h := List.filter_append_perm (fun r => decide (r.zone_id ≠ i)) l
  have hc : l.filter (fun r => !decide (r.zone_id ≠ i)) =
      l.filter (fun r => r.zone_id = i) := by
    apply List.filter_congr
    intro a _
    by_cases ha : a.zone_id = i <;> simp [ha]
  rw [hc] at h
  exact h

theorem map_id_on {α : Type} (l : List α) (f : α → α) (h : ∀ x ∈ l, f x = x) :
    l.map f = l := by
  induction l with
  | nil => rfl
  | cons a t ih =>
    rw [List.map_cons, h a (List.mem_cons_self a t),
      ih (fun x hx => h x (List.mem_cons_of_mem a hx))]

/-- Well-formedness of the single-user store, mirroring the database's
unique key on `cf_zone_id`, primary-key uniqueness, and the
`AUTO_INCREMENT` counter bounding all existing ids. -/
def StoreWF (st : Store) : Prop :=
  (∀ r1 ∈ st.zones, ∀ r2 ∈ st.zones, r1.cf_zone_id = r2.cf_zone_id → r1 = r2) ∧
  (∀ r1 ∈ st.zones, ∀ r2 ∈ st.zones, r1.id = r2.id → r1 = r2) ∧
  (∀ r ∈ st.zones, r.id < st.nextZoneId)

/-- The provider zone `zid` is fully materialised in the store: whenever its
record fetch succeeds with list `R`, a zone row for `zid` exists whose local
id carries exactly the rows generated from `R` and from the fetched load
balancers. -/
def zidSynced (st : Store) (recordsOf : String → Except SyncErr (List CFRecord))
    (lbsOf : String → List CFBalancer) (zid : String) : Prop :=
  ∀ R, recordsOf zid = .ok R →
    ∃ zrow ∈ st.zones, zrow.cf_zone_id = zid ∧
      st.records.filter (fun r => r.zone_id = zrow.id) = R.map (mkRecordRow zrow.id) ∧
      st.lbs.filter (fun r => r.zone_id = zrow.id) = (lbsOf zid).map (mkLBRow zrow.id)

theorem zidSynced_congr {st st2 : Store}
    {recordsOf : String → Except SyncErr (List CFRecord)}
    {lbsOf : String → List CFBalancer} {zid : String}
    (hz : st2.zones = st.zones) (hr : st2.records = st.records)
    (hl : st2.lbs = st.lbs) (h : zidSynced st recordsOf lbsOf zid) :
    zidSynced st2 recordsOf lbsOf zid := by
  unfold zidSynced at h ⊢
  rw [hz, hr, hl]
  exact h

theorem upsert_account_zones (st : Store) (c n : String) :
    (upsert_account st c n).2.zones = st.zones := by
  unfold upsert_account
  cases st.accounts.find? (fun a => a.cf_account_id = c) <;> rfl

theorem upsert_account_records (st : Store) (c n : String) :
    (upsert_account st c n).2.records = st.records := by
  unfold upsert_account
  cases st.accounts.find? (fun a => a.cf_account_id = c) <;> rfl

theorem upsert_account_lbs (st : Store) (c n : String) :
    (upsert_account st c n).2.lbs = st.lbs := by
  unfold upsert_account
  cases st.accounts.find? (fun a => a.cf_account_id = c) <;> rfl

theorem upsert_account_nextZoneId (st : Store) (c n : String) :
    (upsert_account st c n).2.nextZoneId = st.nextZoneId := by
  unfold upsert_account
  cases st.accounts.find? (fun a => a.cf_account_id = c) <;> rfl

theorem upsert_account_WF {st : Store} (h : StoreWF st) (c n : String) :
    StoreWF (upsert_account st c n).2 := by
  unfold StoreWF at h ⊢
  rw [upsert_account_zones, upsert_account_nextZoneId]
  exact h

theorem upsert_account_zidSynced {st : Store} (c n : String)
    {recordsOf : String → Except SyncErr (List CFRecord)}
    {lbsOf : String → List CFBalancer} {zid : String}
    (h : zidSynced st recordsOf lbsOf zid) :
    zidSynced (upsert_account st c n).2 recordsOf lbsOf zid :=
  zidSynced_congr (upsert_account_zones st c n) (upsert_account_records st c n)
    (upsert_account_lbs st c n) h

theorem find?_unique_key {zones : List ZoneRow} {row : ZoneRow} {zid : String}
    (huniq : ∀ r1 ∈ zones, ∀ r2 ∈ zones, r1.cf_zone_id = r2.cf_zone_id → r1 = r2)
    (hr : row ∈ zones) (hk : row.cf_zone_id = zid) :
    zones.find? (fun r => r.cf_zone_id = zid) = some row := by
  cases hf : zones.find? (fun r => r.cf_zone_id = zid) with
  | none =>
    rw [List.find?_eq_none] at hf
    exact absurd (by simpa using hk) (by simpa using hf row hr)
  | some r =>
    have hmem := List.mem_of_find?_eq_some hf
    have hpred : r.cf_zone_id = zid := by simpa using List.find?_some hf
    rw [huniq r hmem row hr (hpred.trans hk.symm)]

theorem upsert_zone_cases (st : Store) (aid : Nat) (zid : String) (z : CFZone) :
    (∃ r ∈ st.zones, r.cf_zone_id = zid ∧ (upsert_zone st aid zid z).1 = r.id ∧
      (upsert_zone st aid zid z).2.zones =
        st.zones.map
          (fun r => if r.cf_zone_id = zid then mkZoneRow r.id aid zid z else r) ∧
      (upsert_zone st aid zid z).2.nextZoneId = st.nextZoneId) ∨
    ((∀ r ∈ st.zones, r.cf_zone_id ≠ zid) ∧
      (upsert_zone st aid zid z).1 = st.nextZoneId ∧
      (upsert_zone st aid zid z).2.zones =
        st.zones ++ [mkZoneRow st.nextZoneId aid zid z] ∧
      (upsert_zone st aid zid z).2.nextZoneId = st.nextZoneId + 1) := by
  unfold upsert_zone
  cases hf : st.zones.find? (fun r => r.cf_zone_id = zid) with
  | none =>
    right
    refine ⟨?_, rfl, rfl, rfl⟩
    intro r hr
    rw [List.find?_eq_none] at hf
    simpa using hf r hr
  | some r =>
    left
    refine ⟨r, List.mem_of_find?_eq_some hf, by simpa using List.find?_some hf,
      rfl, rfl, rfl⟩

theorem upsert_zone_WF {st : Store} (hwf : StoreWF st) (aid : Nat) (zid : String)
    (z : CFZone) : StoreWF (upsert_zone st aid zid z).2 := by
  obtain ⟨hkey, hid, hbound⟩ := hwf
  rcases upsert_zone_cases st aid zid z with
    ⟨r, hr, hrk, hι, hzs, hnext⟩ | ⟨hnone, hι, hzs, hnext⟩
  · refine ⟨?_, ?_, ?_⟩ <;> rw [hzs] <;> try rw [hnext]
    · intro r1 h1 r2 h2 hk
      obtain ⟨s1, hs1, rfl⟩ := List.mem_map.mp h1
      obtain ⟨s2, hs2, rfl⟩ := List.mem_map.mp h2
      have hk1 : ∀ s : ZoneRow,
          (if s.cf_zone_id = zid then mkZoneRow s.id aid zid z else s).cf_zone_id =
            s.cf_zone_id := by
        intro s
        by_cases hc : s.cf_zone_id = zid
        · rw [if_pos hc, hc]; rfl
        · rw [if_neg hc]
      rw [hk1 s1, hk1 s2] at hk
      rw [hkey s1 hs1 s2 hs2 hk]
    · intro r1 h1 r2 h2 hk
      obtain ⟨s1, hs1, rfl⟩ := List.mem_map.mp h1
      obtain ⟨s2, hs2, rfl⟩ := List.mem_map.mp h2
      have hk1 : ∀ s : ZoneRow,
          (if s.cf_zone_id = zid then mkZoneRow s.id aid zid z else s).id = s.id := by
        intro s
        by_cases hc : s.cf_zone_id = zid
        · rw [if_pos hc]; rfl
        · rw [if_neg hc]
      rw [hk1 s1, hk1 s2] at hk
      rw [hid s1 hs1 s2 hs2 hk]
    · intro s hs
      obtain ⟨s0, hs0, rfl⟩ := List.mem_map.mp hs
      have hk1 : (if s0.cf_zone_id = zid then mkZoneRow s0.id aid zid z else s0).id =
          s0.id := by
        by_cases hc : s0.cf_zone_id = zid
        · rw [if_pos hc]; rfl
        · rw [if_neg hc]
      rw [hk1]
      exact hbound s0 hs0
  · refine ⟨?_, ?_, ?_⟩ <;> rw [hzs] <;> try rw [hnext]
    · intro r1 h1 r2 h2 hk
      rcases List.mem_append.mp h1 with h1o | h1n
      · rcases List.mem_append.mp h2 with h2o | h2n
        · exact hkey r1 h1o r2 h2o hk
        · simp at h2n
          subst h2n
          exact absurd (by simpa [mkZoneRow] using hk) (hnone r1 h1o)
      · simp at h1n
        subst h1n
        rcases List.mem_append.mp h2 with h2o | h2n
        · exact absurd (by simpa [mkZoneRow] using hk.symm) (hnone r2 h2o)
        · simp at h2n
          rw [h2n]
    · intro r1 h1 r2 h2 hk
      rcases List.mem_append.mp h1 with h1o | h1n
      · rcases List.mem_append.mp h2 with h2o | h2n
        · exact hid r1 h1o r2 h2o hk
        · simp at h2n
          subst h2n
          have := hbound r1 h1o
          rw [show (mkZoneRow st.nextZoneId aid zid z).id = st.nextZoneId from rfl]
            at hk
          omega
      · simp at h1n
        subst h1n
        rcases List.mem_append.mp h2 with h2o | h2n
        · have := hbound r2 h2o
          rw [show (mkZoneRow st.nextZoneId aid zid z).id = st.nextZoneId from rfl]
            at hk
          omega
        · simp at h2n
          rw [h2n]
    · intro s hs
      rcases List.mem_append.mp hs with ho | hn
      · exact Nat.lt_trans (hbound s ho) (Nat.lt_succ_self _)
      · simp at hn
        subst hn
        exact Nat.lt_succ_self _

theorem upsert_zone_mem_other {st : Store} (aid : Nat) (zid : String) (z : CFZone)
    {row : ZoneRow} (hr : row ∈ st.zones) (hk : row.cf_zone_id ≠ zid) :
    row ∈ (upsert_zone st aid zid z).2.zones := by
  rcases upsert_zone_cases st aid zid z with
    ⟨r, _, _, _, hzs, _⟩ | ⟨_, _, hzs, _⟩
  · rw [hzs]
    exact List.mem_map.mpr ⟨row, hr, by rw [if_neg hk]⟩
  · rw [hzs]
    exact List.mem_append_left _ hr

/-- The store committed by one successful zone pass of `sync_zone` (upsert
the zone, replace its records, replace its load balancers). -/
def zoneStepStore (st : Store) (aid : Nat) (zid : String) (z : CFZone)
    (R : List CFRecord) (bals : List CFBalancer) : Store :=
  replace_zone_load_balancers
    (replace_zone_records (upsert_zone st aid zid z).2 (upsert_zone st aid zid z).1 R)
    (upsert_zone st aid zid z).1 bals

theorem sync_zone_ok (st : Store) (aid : Nat) (zid : String) (z : CFZone)
    (R : List CFRecord) (bals : List CFBalancer) :
    sync_zone st aid zid z (.ok R) bals =
      .ok (zoneStepStore st aid zid z R bals, R.length, bals.length) := rfl

theorem zoneStepStore_zones (st : Store) (aid : Nat) (zid : String) (z : CFZone)
    (R : List CFRecord) (bals : List CFBalancer) :
    (zoneStepStore st aid zid z R bals).zones = (upsert_zone st aid zid z).2.zones :=
  rfl

theorem zoneStepStore_records (st : Store) (aid : Nat) (zid : String) (z : CFZone)
    (R : List CFRecord) (bals : List CFBalancer) :
    (zoneStepStore st aid zid z R bals).records =
      st.records.filter (fun r => r.zone_id ≠ (upsert_zone st aid zid z).1) ++
        R.map (mkRecordRow (upsert_zone st aid zid z).1) := by
  unfold zoneStepStore replace_zone_load_balancers replace_zone_records
  simp [upsert_zone_records]

theorem zoneStepStore_lbs (st : Store) (aid : Nat) (zid : String) (z : CFZone)
    (R : List CFRecord) (bals : List CFBalancer) :
    (zoneStepStore st aid zid z R bals).lbs =
      st.lbs.filter (fun r => r.zone_id ≠ (upsert_zone st aid zid z).1) ++
        bals.map (mkLBRow (upsert_zone st aid zid z).1) := by
  unfold zoneStepStore replace_zone_load_balancers replace_zone_records
  simp [upsert_zone_lbs]

theorem zoneStepStore_WF {st : Store} (hwf : StoreWF st) (aid : Nat) (zid : String)
    (z : CFZone) (R : List CFRecord) (bals : List CFBalancer) :
    StoreWF (zoneStepStore st aid zid z R bals) :=
  upsert_zone_WF hwf aid zid z

theorem upsert_zone_new_row (st : Store) (aid : Nat) (zid : String) (z : CFZone) :
    ∃ zrow ∈ (upsert_zone st aid zid z).2.zones,
      zrow.cf_zone_id = zid ∧ zrow.id = (upsert_zone st aid zid z).1 := by
  rcases upsert_zone_cases st aid zid z with
    ⟨r, hr, hrk, hι, hzs, _⟩ | ⟨hnone, hι, hzs, _⟩
  · exact ⟨mkZoneRow r.id aid zid z,
      by rw [hzs]; exact List.mem_map.mpr ⟨r, hr, by rw [if_pos hrk]⟩, rfl,
      by rw [hι]; exact rfl⟩
  · exact ⟨mkZoneRow st.nextZoneId aid zid z,
      by rw [hzs]; exact List.mem_append_right _ (by simp), rfl,
      by rw [hι]; exact rfl⟩

theorem zoneStepStore_synced {st : Store}
    (recordsOf : String → Except SyncErr (List CFRecord))
    (lbsOf : String → List CFBalancer) (aid : Nat) (zid : String) (z : CFZone)
    {R : List CFRecord} (hrec : recordsOf zid = .ok R) :
    zidSynced (zoneStepStore st aid zid z R (lbsOf zid)) recordsOf lbsOf zid := by
  intro R2 hR2
  have hRR : R2 = R := by
    rw [hrec] at hR2
    exact (Except.ok.injEq _ _).mp hR2.symm
  subst hRR
  obtain ⟨zrow, hmem, hkey, hidEq⟩ := upsert_zone_new_row st aid zid z
  refine ⟨zrow, ?_, hkey, ?_, ?_⟩
  · rw [zoneStepStore_zones]
    exact hmem
  · rw [zoneStepStore_records, hidEq, List.filter_append,
      record_filter_ne_then_eq, record_block_filter_eq, List.nil_append]
  · rw [zoneStepStore_lbs, hidEq, List.filter_append,
      lb_filter_ne_then_eq, lb_block_filter_eq, List.nil_append]

theorem zoneStepStore_preserves {st : Store} (hwf : StoreWF st)
    (recordsOf : String → Except SyncErr (List CFRecord))
    (lbsOf : String → List CFBalancer) (aid : Nat) (zid : String) (z : CFZone)
    {R : List CFRecord} (hrec : recordsOf zid = .ok R) (w : String)
    (hw : zidSynced st recordsOf lbsOf w) :
    zidSynced (zoneStepStore st aid zid z R (lbsOf zid)) recordsOf lbsOf w := by
  by_cases hwz : w = zid
  · subst hwz
    exact zoneStepStore_synced recordsOf lbsOf aid w z hrec
  · intro Rw hRw
    obtain ⟨wrow, hmem, hkey, hrecs, hlbs⟩ := hw Rw hRw
    have hkNe : wrow.cf_zone_id ≠ zid := by rw [hkey]; exact hwz
    have hidNe : wrow.id ≠ (upsert_zone st aid zid z).1 := by
      rcases upsert_zone_cases st aid zid z with
        ⟨r, hr, hrk, hι, _, _⟩ | ⟨_, hι, _, _⟩
      · rw [hι]
        intro hc
        exact hkNe (by rw [hwf.2.1 wrow hmem r hr hc, hrk])
      · rw [hι]
        exact Nat.ne_of_lt (hwf.2.2 wrow hmem)
    refine ⟨wrow, ?_, hkey, ?_, ?_⟩
    · rw [zoneStepStore_zones]
      exact upsert_zone_mem_other aid zid z hmem hkNe
    · rw [zoneStepStore_records, List.filter_append,
        record_filter_ne_then_other _ hidNe, record_block_filter_other _ hidNe,
        List.append_nil, hrecs]
    · rw [zoneStepStore_lbs, List.filter_append,
        lb_filter_ne_then_other _ hidNe, lb_block_filter_other _ hidNe,
        List.append_nil, hlbs]

theorem zoneStepStore_perm {st : Store} (hwf : StoreWF st)
    {recordsOf : String → Except SyncErr (List CFRecord)}
    {lbsOf : String → List CFBalancer} (aid : Nat) (zid : String) (z : CFZone)
    {R : List CFRecord} (hrec : recordsOf zid = .ok R)
    (hsynced : zidSynced st recordsOf lbsOf zid) :
    (zoneStepStore st aid zid z R (lbsOf zid)).records.Perm st.records ∧
      (zoneStepStore st aid zid z R (lbsOf zid)).lbs.Perm st.lbs := by
  obtain ⟨zrow, hmem, hkey, hrecs, hlbs⟩ := hsynced R hrec
  have hι : (upsert_zone st aid zid z).1 = zrow.id := by
    unfold upsert_zone
    rw [find?_unique_key hwf.1 hmem hkey]
  constructor
  · rw [zoneStepStore_records, hι, ← hrecs]
    exact record_split_perm st.records zrow.id
  · rw [zoneStepStore_lbs, hι, ← hlbs]
    exact lb_split_perm st.lbs zrow.id

theorem syncZonesLoop_inv
    (recordsOf : String → Except SyncErr (List CFRecord))
    (lbsOf : String → List CFBalancer) (acct : String)
    (hno : ∀ zid m, recordsOf zid ≠ .error (.other m)) :
    ∀ (zs : List CFZone) (st : Store) (sm : Summary), StoreWF st →
      ∃ st2 sm2, syncZonesLoop recordsOf lbsOf acct st sm zs = .ok (st2, sm2) ∧
        StoreWF st2 ∧
        (∀ w, zidSynced st recordsOf lbsOf w → zidSynced st2 recordsOf lbsOf w) ∧
        (∀ z ∈ zs, ∀ zid, z.id = some zid → zid ≠ "" →
          zidSynced st2 recordsOf lbsOf zid) := by
  intro zs
  induction zs with
  | nil =>
    intro st sm hwf
    exact ⟨st, sm, rfl, hwf, fun w h => h, by simp⟩
  | cons z rest ih =>
    intro st sm hwf
    cases hzid : z.id with
    | none =>
      obtain ⟨st2, sm2, hrun, hwf2, hpres, hall⟩ := ih st sm hwf
      refine ⟨st2, sm2, ?_, hwf2, hpres, ?_⟩
      · simp only [syncZonesLoop, hzid]
        exact hrun
      · intro z2 hz2 zid hid hne
        rcases List.mem_cons.mp hz2 with rfl | hmem
        · rw [hzid] at hid
          exact absurd hid (by simp)
        · exact hall z2 hmem zid hid hne
    | some zid0 =>
      by_cases hzero : zid0 = ""
      · subst hzero
        obtain ⟨st2, sm2, hrun, hwf2, hpres, hall⟩ := ih st sm hwf
        refine ⟨st2, sm2, ?_, hwf2, hpres, ?_⟩
        · simp only [syncZonesLoop, hzid]
          exact hrun
        · intro z2 hz2 zid hid hne
          rcases List.mem_cons.mp hz2 with rfl | hmem
          · rw [hzid] at hid
            injection hid with h
            exact absurd h.symm hne
          · exact hall z2 hmem zid hid hne
      · have hwfq : StoreWF (upsert_account st (acctKeyOf acct z) (acctNameOf z)).2 :=
          upsert_account_WF hwf _ _
        cases hrec : recordsOf zid0 with
        | error e =>
          cases e with
          | other m => exact absurd hrec (hno zid0 m)
          | cf m =>
            obtain ⟨st2, sm2, hrun, hwf2, hpres, hall⟩ := ih _ sm hwfq
            refine ⟨st2, sm2, ?_, hwf2, ?_, ?_⟩
            · simp only [syncZonesLoop, hzid]
              rw [if_neg hzero, hrec]
              exact hrun
            · intro w hw
              exact hpres w (upsert_account_zidSynced _ _ hw)
            · intro z2 hz2 zid hid hne
              rcases List.mem_cons.mp hz2 with rfl | hmem
              · rw [hzid] at hid
                injection hid with h
                subst h
                intro R hR
                rw [hrec] at hR
                exact absurd hR (by simp)
              · exact hall z2 hmem zid hid hne
        | ok R =>
          have hwfs : StoreWF (zoneStepStore
              (upsert_account st (acctKeyOf acct z) (acctNameOf z)).2
              (upsert_account st (acctKeyOf acct z) (acctNameOf z)).1 zid0 z R
              (lbsOf zid0)) :=
            zoneStepStore_WF hwfq _ _ _ _ _
          obtain ⟨st2, sm2, hrun, hwf2, hpres, hall⟩ := ih _
            ⟨sm.zones + 1, sm.records + R.length,
              sm.load_balancers + (lbsOf zid0).length⟩ hwfs
          refine ⟨st2, sm2, ?_, hwf2, ?_, ?_⟩
          · simp only [syncZonesLoop, hzid]
            rw [if_neg hzero, hrec, sync_zone_ok]
            exact hrun
          · intro w hw
            exact hpres w (zoneStepStore_preserves hwfq recordsOf lbsOf _ zid0 z
              hrec w (upsert_account_zidSynced _ _ hw))
          · intro z2 hz2 zid hid hne
            rcases List.mem_cons.mp hz2 with rfl | hmem
            · rw [hzid] at hid
              injection hid with h
              subst h
              exact hpres zid0 (zoneStepStore_synced recordsOf lbsOf _ zid0 z2 hrec)
            · exact hall z2 hmem zid hid hne

theorem syncZonesLoop_resync
    (recordsOf : String → Except SyncErr (List CFRecord))
    (lbsOf : String → List CFBalancer) (acct : String)
    (hno : ∀ zid m, recordsOf zid ≠ .error (.other m)) :
    ∀ (zs : List CFZone) (st : Store) (sm : Summary), StoreWF st →
      (∀ z ∈ zs, ∀ zid, z.id = some zid → zid ≠ "" →
        zidSynced st recordsOf lbsOf zid) →
      ∃ st2 sm2, syncZonesLoop recordsOf lbsOf acct st sm zs = .ok (st2, sm2) ∧
        StoreWF st2 ∧ st2.records.Perm st.records ∧ st2.lbs.Perm st.lbs ∧
        (∀ w, zidSynced st recordsOf lbsOf w → zidSynced st2 recordsOf lbsOf w) := by
  intro zs
  induction zs with
  | nil =>
    intro st sm hwf _
    exact ⟨st, sm, rfl, hwf, List.Perm.refl _, List.Perm.refl _, fun w h => h⟩
  | cons z rest ih =>
    intro st sm hwf hsyn
    have hsynRest : ∀ z2 ∈ rest, ∀ zid, z2.id = some zid → zid ≠ "" →
        zidSynced st recordsOf lbsOf zid :=
      fun z2 h2 => hsyn z2 (List.mem_cons_of_mem z h2)
    cases hzid : z.id with
    | none =>
      obtain ⟨st2, sm2, hrun, hwf2, hp1, hp2, hpres⟩ := ih st sm hwf hsynRest
      refine ⟨st2, sm2, ?_, hwf2, hp1, hp2, hpres⟩
      simp only [syncZonesLoop, hzid]
      exact hrun
    | some zid0 =>
      by_cases hzero : zid0 = ""
      · subst hzero
        obtain ⟨st2, sm2, hrun, hwf2, hp1, hp2, hpres⟩ := ih st sm hwf hsynRest
        refine ⟨st2, sm2, ?_, hwf2, hp1, hp2, hpres⟩
        simp only [syncZonesLoop, hzid]
        exact hrun
      · have hsynHead : zidSynced st recordsOf lbsOf zid0 :=
          hsyn z (List.mem_cons_self z rest) zid0 hzid hzero
        have hwfq : StoreWF (upsert_account st (acctKeyOf acct z) (acctNameOf z)).2 :=
          upsert_account_WF hwf _ _
        have heqz : (upsert_account st (acctKeyOf acct z) (acctNameOf z)).2.zones =
            st.zones := upsert_account_zones st _ _
        have heqr : (upsert_account st (acctKeyOf acct z) (acctNameOf z)).2.records =
            st.records := upsert_account_records st _ _
        have heql : (upsert_account st (acctKeyOf acct z) (acctNameOf z)).2.lbs =
            st.lbs := upsert_account_lbs st _ _
        cases hrec : recordsOf zid0 with
        | error e =>
          cases e with
          | other m => exact absurd hrec (hno zid0 m)
          | cf m =>
            obtain ⟨st2, sm2, hrun, hwf2, hp1, hp2, hpres⟩ := ih _ sm hwfq
              (fun z2 h2 zid hid hne =>
                upsert_account_zidSynced _ _ (hsynRest z2 h2 zid hid hne))
            refine ⟨st2, sm2, ?_, hwf2, ?_, ?_, ?_⟩
            · simp only [syncZonesLoop, hzid]
              rw [if_neg hzero, hrec]
              exact hrun
            · rw [heqr] at hp1
              exact hp1
            · rw [heql] at hp2
              exact hp2
            · intro w hw
              exact hpres w (upsert_account_zidSynced _ _ hw)
        | ok R =>
          have hsynq : zidSynced (upsert_account st (acctKeyOf acct z)
              (acctNameOf z)).2 recordsOf lbsOf zid0 :=
            upsert_account_zidSynced _ _ hsynHead
          have hwfs : StoreWF (zoneStepStore
              (upsert_account st (acctKeyOf acct z) (acctNameOf z)).2
              (upsert_account st (acctKeyOf acct z) (acctNameOf z)).1 zid0 z R
              (lbsOf zid0)) :=
            zoneStepStore_WF hwfq _ _ _ _ _
          have hperm := zoneStepStore_perm hwfq
            (upsert_account st (acctKeyOf acct z) (acctNameOf z)).1 zid0 z hrec hsynq
          obtain ⟨st2, sm2, hrun, hwf2, hp1, hp2, hpres⟩ := ih _
            ⟨sm.zones + 1, sm.records + R.length,
              sm.load_balancers + (lbsOf zid0).length⟩ hwfs
            (fun z2 h2 zid hid hne =>
              zoneStepStore_preserves hwfq recordsOf lbsOf _ zid0 z hrec zid
                (upsert_account_zidSynced _ _ (hsynRest z2 h2 zid hid hne)))
          refine ⟨st2, sm2, ?_, hwf2, ?_, ?_, ?_⟩
          · simp only [syncZonesLoop, hzid]
            rw [if_neg hzero, hrec, sync_zone_ok]
            exact hrun
          · refine hp1.trans ?_
            rw [heqr] at hperm
            exact hperm.1
          · refine hp2.trans ?_
            rw [heql] at hperm
            exact hperm.2
          · intro w hw
            exact hpres w (zoneStepStore_preserves hwfq recordsOf lbsOf _ zid0 z
              hrec w (upsert_account_zidSynced _ _ hw))

theorem syncAccountsGo_inv
    (zonesOf : String → Except String (List CFZone))
    (recordsOf : String → Except SyncErr (List CFRecord))
    (lbsOf : String → List CFBalancer)
    (hno : ∀ zid m, recordsOf zid ≠ .error (.other m)) :
    ∀ (ids : List String) (st : Store) (sm : Summary), StoreWF st →
      ∃ st2 sm2, syncAccountsGo zonesOf recordsOf lbsOf st sm ids = .ok (st2, sm2) ∧
        StoreWF st2 ∧
        (∀ w, zidSynced st recordsOf lbsOf w → zidSynced st2 recordsOf lbsOf w) ∧
        (∀ a ∈ ids, ∀ zs, zonesOf a = .ok zs → ∀ z ∈ zs, ∀ zid,
          z.id = some zid → zid ≠ "" → zidSynced st2 recordsOf lbsOf zid) := by
  intro ids
  induction ids with
  | nil =>
    intro st sm hwf
    exact ⟨st, sm, rfl, hwf, fun w h => h, by simp⟩
  | cons a rest ih =>
    intro st sm hwf
    cases hza : zonesOf a with
    | error e =>
      obtain ⟨st2, sm2, hrun, hwf2, hpres, hall⟩ := ih st sm hwf
      refine ⟨st2, sm2, ?_, hwf2, hpres, ?_⟩
      · simp only [syncAccountsGo, hza]
        exact hrun
      · intro a2 ha2 zs hzs z hz zid hid hne
        rcases List.mem_cons.mp ha2 with rfl | hmem
        · rw [hza] at hzs
          exact absurd hzs (by simp)
        · exact hall a2 hmem zs hzs z hz zid hid hne
    | ok zs =>
      obtain ⟨stL, smL, hrunL, hwfL, hpresL, hallL⟩ :=
        syncZonesLoop_inv recordsOf lbsOf a hno zs st sm hwf
      obtain ⟨st2, sm2, hrun, hwf2, hpres, hall⟩ := ih stL smL hwfL
      refine ⟨st2, sm2, ?_, hwf2, ?_, ?_⟩
      · simp only [syncAccountsGo, hza]
        rw [hrunL]
        exact hrun
      · intro w hw
        exact hpres w (hpresL w hw)
      · intro a2 ha2 zs2 hzs2 z hz zid hid hne
        rcases List.mem_cons.mp ha2 with rfl | hmem
        · rw [hza] at hzs2
          have hzz : zs2 = zs := by
            exact ((Except.ok.injEq _ _).mp hzs2).symm
          subst hzz
          exact hpres zid (hallL z hz zid hid hne)
        · exact hall a2 hmem zs2 hzs2 z hz zid hid hne

theorem syncAccountsGo_resync
    (zonesOf : String → Except String (List CFZone))
    (recordsOf : String → Except SyncErr (List CFRecord))
    (lbsOf : String → List CFBalancer)
    (hno : ∀ zid m, recordsOf zid ≠ .error (.other m)) :
    ∀ (ids : List String) (st : Store) (sm : Summary), StoreWF st →
      (∀ a ∈ ids, ∀ zs, zonesOf a = .ok zs → ∀ z ∈ zs, ∀ zid,
        z.id = some zid → zid ≠ "" → zidSynced st recordsOf lbsOf zid) →
      ∃ st2 sm2, syncAccountsGo zonesOf recordsOf lbsOf st sm ids = .ok (st2, sm2) ∧
        StoreWF st2 ∧ st2.records.Perm st.records ∧ st2.lbs.Perm st.lbs ∧
        (∀ w, zidSynced st recordsOf lbsOf w → zidSynced st2 recordsOf lbsOf w) := by
  intro ids
  induction ids with
  | nil =>
    intro st sm hwf _
    exact ⟨st, sm, rfl, hwf, List.Perm.refl _, List.Perm.refl _, fun w h => h⟩
  | cons a rest ih =>
    intro st sm hwf hsyn
    have hsynRest : ∀ a2 ∈ rest, ∀ zs, zonesOf a2 = .ok zs → ∀ z ∈ zs, ∀ zid,
        z.id = some zid → zid ≠ "" → zidSynced st recordsOf lbsOf zid :=
      fun a2 h2 => hsyn a2 (List.mem_cons_of_mem a h2)
    cases hza : zonesOf a with
    | error e =>
      obtain ⟨st2, sm2, hrun, hwf2, hp1, hp2, hpres⟩ := ih st sm hwf hsynRest
      refine ⟨st2, sm2, ?_, hwf2, hp1, hp2, hpres⟩
      simp only [syncAccountsGo, hza]
      exact hrun
    | ok zs =>
      have hsynZs : ∀ z ∈ zs, ∀ zid, z.id = some zid → zid ≠ "" →
          zidSynced st recordsOf lbsOf zid :=
        hsyn a (List.mem_cons_self a rest) zs hza
      obtain ⟨stL, smL, hrunL, hwfL, hpL1, hpL2, hpresL⟩ :=
        syncZonesLoop_resync recordsOf lbsOf a hno zs st sm hwf hsynZs
      obtain ⟨st2, sm2, hrun, hwf2, hp1, hp2, hpres⟩ := ih stL smL hwfL
        (fun a2 h2 zs2 hzs2 z hz zid hid hne =>
          hpresL zid (hsynRest a2 h2 zs2 hzs2 z hz zid hid hne))
      refine ⟨st2, sm2, ?_, hwf2, hp1.trans hpL1, hp2.trans hpL2, ?_⟩
      · simp only [syncAccountsGo, hza]
        rw [hrunL]
        exact hrun
      · intro w hw
        exact hpres w (hpresL w hw)

/-! ## Theorems: C2 — the pool/origin second pass -/

theorem origin_filter_ne_then_eq (l : List OriginRow) (i : Nat) :
    (l.filter (fun r => r.pool_id ≠ i)).filter (fun r => r.pool_id = i) = [] := by
  induction l with
  | nil => rfl
  | cons a t ih =>
    by_cases h : a.pool_id = i
    · simp [List.filter_cons, h, ih]
    · simp [List.filter_cons, h, ih]

theorem origin_filter_ne_then_other (l : List OriginRow) {i j : Nat} (h : j ≠ i) :
    (l.filter (fun r => r.pool_id ≠ i)).filter (fun r => r.pool_id = j) =
      l.filter (fun r => r.pool_id = j) := by
  rw [List.filter_filter]
  apply List.filter_congr
  intro a _
  by_cases hj : a.pool_id = j
  · have hi : a.pool_id ≠ i := by rw [hj]; exact h
    simp [hj, hi, h]
  · simp [hj]

theorem origin_block_filter_eq (i : Nat) (O : List OriginData) :
    (O.map (mkOriginRow i)).filter (fun r => r.pool_id = i) = O.map (mkOriginRow i) := by
  rw [List.filter_eq_self]
  intro a ha
  obtain ⟨x, _, hx⟩ := List.mem_map.mp ha
  subst hx
  simp [mkOriginRow]

theorem origin_block_filter_other (i : Nat) {j : Nat} (h : j ≠ i)
    (O : List OriginData) :
    (O.map (mkOriginRow i)).filter (fun r => r.pool_id = j) = [] := by
  rw [List.filter_eq_nil_iff]
  intro a ha
  obtain ⟨x, _, hx⟩ := List.mem_map.mp ha
  subst hx
  simp [mkOriginRow]
  exact fun hc => h hc.symm

theorem origin_split_perm (l : List OriginRow) (i : Nat) :
    (l.filter (fun r => r.pool_id ≠ i) ++ l.filter (fun r => r.pool_id = i)).Perm l := by
  have h := List.filter_append_perm (fun r => decide (r.pool_id ≠ i)) l
  have hc : l.filter (fun r => !decide (r.pool_id ≠ i)) =
      l.filter (fun r => r.pool_id = i) := by
    apply List.filter_congr
    intro a _
    by_cases ha : a.pool_id = i <;> simp [ha]
  rw [hc] at h
  exact h

/-- Well-formedness of the pool store: the unique key `(lb_id, cf_pool_id)`,
primary-key uniqueness and the counter bound. -/
def PoolWF (ps : PoolStore) : Prop :=
  (∀ p1 ∈ ps.pools, ∀ p2 ∈ ps.pools, p1.lb_id = p2.lb_id →
    p1.cf_pool_id = p2.cf_pool_id → p1 = p2) ∧
  (∀ p1 ∈ ps.pools, ∀ p2 ∈ ps.pools, p1.id = p2.id → p1 = p2) ∧
  (∀ p ∈ ps.pools, p.id < ps.nextPoolId)

/-- Pool id `pid` is fully materialised under the load balancer that the
source links it to: the pool row carries exactly the fetched fields and its
origin rows are exactly the fetched origin list. -/
def pidSynced (ps : PoolStore) (lbs : List LBInfo)
    (fetch : String → Option PoolData) (pid : String) : Prop :=
  ∀ d, fetch pid = some d → ∀ lb, lbForPool lbs pid = some lb →
    ∃ prow ∈ ps.pools, prow.lb_id = lb.id ∧ prow.cf_pool_id = pid ∧
      prow = mkPoolRow prow.id lb.id pid d ∧
      ps.origins.filter (fun o => o.pool_id = prow.id) =
        d.origins.map (mkOriginRow prow.id)

theorem upsertPool_cases (ps : PoolStore) (lb_id : Nat) (cf_pool_id : String)
    (d : PoolData) :
    (∃ p ∈ ps.pools, p.lb_id = lb_id ∧ p.cf_pool_id = cf_pool_id ∧
      (upsertPool ps lb_id cf_pool_id d).1 = p.id ∧
      (upsertPool ps lb_id cf_pool_id d).2.pools =
        ps.pools.map
          (fun q => if q.lb_id = lb_id ∧ q.cf_pool_id = cf_pool_id then
            mkPoolRow q.id lb_id cf_pool_id d else q) ∧
      (upsertPool ps lb_id cf_pool_id d).2.origins = ps.origins ∧
      (upsertPool ps lb_id cf_pool_id d).2.nextPoolId = ps.nextPoolId) ∨
    ((∀ p ∈ ps.pools, ¬(p.lb_id = lb_id ∧ p.cf_pool_id = cf_pool_id)) ∧
      (upsertPool ps lb_id cf_pool_id d).1 = ps.nextPoolId ∧
      (upsertPool ps lb_id cf_pool_id d).2.pools =
        ps.pools ++ [mkPoolRow ps.nextPoolId lb_id cf_pool_id d] ∧
      (upsertPool ps lb_id cf_pool_id d).2.origins = ps.origins ∧
      (upsertPool ps lb_id cf_pool_id d).2.nextPoolId = ps.nextPoolId + 1) := by
  unfold upsertPool
  cases hf : ps.pools.find? (fun p => p.lb_id = lb_id ∧ p.cf_pool_id = cf_pool_id) with
  | none =>
    right
    refine ⟨?_, rfl, rfl, rfl, rfl⟩
    intro p hp
    rw [List.find?_eq_none] at hf
    simpa using hf p hp
  | some p =>
    left
    have hpred := List.find?_some hf
    simp at hpred
    exact ⟨p, List.mem_of_find?_eq_some hf, hpred.1, hpred.2, rfl, rfl, rfl, rfl⟩

theorem pool_find?_unique {pools : List PoolRow} {row : PoolRow} {lbid : Nat}
    {pid : String}
    (huniq : ∀ p1 ∈ pools, ∀ p2 ∈ pools, p1.lb_id = p2.lb_id →
      p1.cf_pool_id = p2.cf_pool_id → p1 = p2)
    (hr : row ∈ pools) (h1 : row.lb_id = lbid) (h2 : row.cf_pool_id = pid) :
    pools.find? (fun p => p.lb_id = lbid ∧ p.cf_pool_id = pid) = some row := by
  cases hf : pools.find? (fun p => p.lb_id = lbid ∧ p.cf_pool_id = pid) with
  | none =>
    rw [List.find?_eq_none] at hf
    have := hf row hr
    simp at this
    exact absurd (this h1) (by simp [h2])
  | some p =>
    have hmem := List.mem_of_find?_eq_some hf
    have hpred := List.find?_some hf
    simp at hpred
    rw [huniq p hmem row hr (hpred.1.trans h1.symm) (hpred.2.trans h2.symm)]

theorem upsertPool_WF {ps : PoolStore} (hwf : PoolWF ps) (lb_id : Nat)
    (cf_pool_id : String) (d : PoolData) :
    PoolWF (upsertPool ps lb_id cf_pool_id d).2 := by
  obtain ⟨hkey, hid, hbound⟩ := hwf
  rcases upsertPool_cases ps lb_id cf_pool_id d with
    ⟨p, hp, hp1, hp2, hι, hps, _, hnext⟩ | ⟨hnone, hι, hps, _, hnext⟩
  · have hfk : ∀ q : PoolRow,
        ((if q.lb_id = lb_id ∧ q.cf_pool_id = cf_pool_id then
          mkPoolRow q.id lb_id cf_pool_id d else q).lb_id,
         (if q.lb_id = lb_id ∧ q.cf_pool_id = cf_pool_id then
          mkPoolRow q.id lb_id cf_pool_id d else q).cf_pool_id,
         (if q.lb_id = lb_id ∧ q.cf_pool_id = cf_pool_id then
          mkPoolRow q.id lb_id cf_pool_id d else q).id) =
        (q.lb_id, q.cf_pool_id, q.id) := by
      intro q
      by_cases hc : q.lb_id = lb_id ∧ q.cf_pool_id = cf_pool_id
      · rw [if_pos hc]
        show (lb_id, cf_pool_id, q.id) = (q.lb_id, q.cf_pool_id, q.id)
        rw [hc.1, hc.2]
      · rw [if_neg hc]
    refine ⟨?_, ?_, ?_⟩ <;> rw [hps] <;> try rw [hnext]
    · intro r1 h1 r2 h2 ha hb
      obtain ⟨s1, hs1, rfl⟩ := List.mem_map.mp h1
      obtain ⟨s2, hs2, rfl⟩ := List.mem_map.mp h2
      have e1 := hfk s1
      have e2 := hfk s2
      simp only [Prod.mk.injEq] at e1 e2
      rw [e1.1, e2.1] at ha
      rw [e1.2.1, e2.2.1] at hb
      rw [hkey s1 hs1 s2 hs2 ha hb]
    · intro r1 h1 r2 h2 ha
      obtain ⟨s1, hs1, rfl⟩ := List.mem_map.mp h1
      obtain ⟨s2, hs2, rfl⟩ := List.mem_map.mp h2
      have e1 := hfk s1
      have e2 := hfk s2
      simp only [Prod.mk.injEq] at e1 e2
      rw [e1.2.2, e2.2.2] at ha
      rw [hid s1 hs1 s2 hs2 ha]
    · intro s hs
      obtain ⟨s0, hs0, rfl⟩ := List.mem_map.mp hs
      have e0 := hfk s0
      simp only [Prod.mk.injEq] at e0
      rw [e0.2.2]
      exact hbound s0 hs0
  · refine ⟨?_, ?_, ?_⟩ <;> rw [hps] <;> try rw [hnext]
    · intro r1 h1 r2 h2 ha hb
      rcases List.mem_append.mp h1 with h1o | h1n
      · rcases List.mem_append.mp h2 with h2o | h2n
        · exact hkey r1 h1o r2 h2o ha hb
        · simp at h2n
          subst h2n
          exact absurd ⟨by simpa [mkPoolRow] using ha, by simpa [mkPoolRow] using hb⟩
            (hnone r1 h1o)
      · simp at h1n
        subst h1n
        rcases List.mem_append.mp h2 with h2o | h2n
        · exact absurd ⟨by simpa [mkPoolRow] using ha.symm,
            by simpa [mkPoolRow] using hb.symm⟩ (hnone r2 h2o)
        · simp at h2n
          rw [h2n]
    · intro r1 h1 r2 h2 ha
      rcases List.mem_append.mp h1 with h1o | h1n
      · rcases List.mem_append.mp h2 with h2o | h2n
        · exact hid r1 h1o r2 h2o ha
        · simp at h2n
          subst h2n
          have := hbound r1 h1o
          rw [show (mkPoolRow ps.nextPoolId lb_id cf_pool_id d).id = ps.nextPoolId
            from rfl] at ha
          omega
      · simp at h1n
        subst h1n
        rcases List.mem_append.mp h2 with h2o | h2n
        · have := hbound r2 h2o
          rw [show (mkPoolRow ps.nextPoolId lb_id cf_pool_id d).id = ps.nextPoolId
            from rfl] at ha
          omega
        · simp at h2n
          rw [h2n]
    · intro s hs
      rcases List.mem_append.mp hs with ho | hn
      · exact Nat.lt_trans (hbound s ho) (Nat.lt_succ_self _)
      · simp at hn
        subst hn
        exact Nat.lt_succ_self _

theorem upsertPool_origins (ps : PoolStore) (lbid : Nat) (pid : String)
    (d : PoolData) : (upsertPool ps lbid pid d).2.origins = ps.origins := by
  unfold upsertPool
  cases ps.pools.find? (fun p => p.lb_id = lbid ∧ p.cf_pool_id = pid) <;> rfl

theorem upsertPool_new_row (ps : PoolStore) (lbid : Nat) (pid : String)
    (d : PoolData) :
    ∃ prow ∈ (upsertPool ps lbid pid d).2.pools,
      prow.lb_id = lbid ∧ prow.cf_pool_id = pid ∧
      prow = mkPoolRow prow.id lbid pid d ∧
      prow.id = (upsertPool ps lbid pid d).1 := by
  rcases upsertPool_cases ps lbid pid d with
    ⟨p, hp, hp1, hp2, hι, hps, _, _⟩ | ⟨hnone, hι, hps, _, _⟩
  · refine ⟨mkPoolRow p.id lbid pid d, ?_, rfl, rfl, rfl, by rw [hι]; exact rfl⟩
    rw [hps]
    exact List.mem_map.mpr ⟨p, hp, by rw [if_pos ⟨hp1, hp2⟩]⟩
  · refine ⟨mkPoolRow ps.nextPoolId lbid pid d, ?_, rfl, rfl, rfl,
      by rw [hι]; exact rfl⟩
    rw [hps]
    exact List.mem_append_right _ (by simp)

theorem sync_one_pool_some (ps : PoolStore) (lbs : List LBInfo) (pid : String)
    (fetch : String → Option PoolData) (d : PoolData) (lb : LBInfo)
    (hf : fetch pid = some d) (hlb : lbForPool lbs pid = some lb) :
    sync_one_pool ps lbs pid fetch =
      { (upsertPool ps lb.id pid d).2 with
        origins :=
          (upsertPool ps lb.id pid d).2.origins.filter
            (fun o => o.pool_id ≠ (upsertPool ps lb.id pid d).1) ++
            d.origins.map (mkOriginRow (upsertPool ps lb.id pid d).1) } := by
  unfold sync_one_pool
  rw [hf, hlb]

theorem sync_one_pool_WF {ps : PoolStore} (hwf : PoolWF ps) (lbs : List LBInfo)
    (pid : String) (fetch : String → Option PoolData) :
    PoolWF (sync_one_pool ps lbs pid fetch) := by
  cases hf : fetch pid with
  | none => unfold sync_one_pool; rw [hf]; exact hwf
  | some d =>
    cases hlb : lbForPool lbs pid with
    | none => unfold sync_one_pool; rw [hf, hlb]; exact hwf
    | some lb =>
      rw [sync_one_pool_some ps lbs pid fetch d lb hf hlb]
      exact upsertPool_WF hwf lb.id pid d

theorem sync_one_pool_synced (ps : PoolStore) (lbs : List LBInfo) (pid : String)
    (fetch : String → Option PoolData) :
    pidSynced (sync_one_pool ps lbs pid fetch) lbs fetch pid := by
  intro d hd lb hlb
  rw [sync_one_pool_some ps lbs pid fetch d lb hd hlb]
  obtain ⟨prow, hmem, h1, h2, h3, h4⟩ := upsertPool_new_row ps lb.id pid d
  refine ⟨prow, hmem, h1, h2, h3, ?_⟩
  show ((upsertPool ps lb.id pid d).2.origins.filter
      (fun o => o.pool_id ≠ (upsertPool ps lb.id pid d).1) ++
      d.origins.map (mkOriginRow (upsertPool ps lb.id pid d).1)).filter
      (fun o => o.pool_id = prow.id) = d.origins.map (mkOriginRow prow.id)
  rw [← h4, List.filter_append, origin_filter_ne_then_eq, origin_block_filter_eq,
    List.nil_append]

theorem sync_one_pool_preserves {ps : PoolStore} (hwf : PoolWF ps)
    (lbs : List LBInfo) (pid : String) (fetch : String → Option PoolData)
    (w : String) (hw : pidSynced ps lbs fetch w) :
    pidSynced (sync_one_pool ps lbs pid fetch) lbs fetch w := by
  by_cases hwp : w = pid
  · subst hwp
    exact sync_one_pool_synced ps lbs w fetch
  · cases hf : fetch pid with
    | none => unfold sync_one_pool; rw [hf]; exact hw
    | some d =>
      cases hlb : lbForPool lbs pid with
      | none => unfold sync_one_pool; rw [hf, hlb]; exact hw
      | some lb =>
        rw [sync_one_pool_some ps lbs pid fetch d lb hf hlb]
        intro dw hdw lbw hlbw
        obtain ⟨prow, hmem, h1, h2, h3, h5⟩ := hw dw hdw lbw hlbw
        have hnm : ¬(prow.lb_id = lb.id ∧ prow.cf_pool_id = pid) := by
          intro hc
          exact hwp (h2.symm.trans hc.2)
        have hidNe : prow.id ≠ (upsertPool ps lb.id pid d).1 := by
          rcases upsertPool_cases ps lb.id pid d with
            ⟨p, hp, hp1, hp2, hι, _, _, _⟩ | ⟨_, hι, _, _, _⟩
          · rw [hι]
            intro hc
            have heq := hwf.2.1 prow hmem p hp hc
            exact hnm ⟨heq ▸ hp1, heq ▸ hp2⟩
          · rw [hι]
            exact Nat.ne_of_lt (hwf.2.2 prow hmem)
        have hmem2 : prow ∈ (upsertPool ps lb.id pid d).2.pools := by
          rcases upsertPool_cases ps lb.id pid d with
            ⟨p, hp, hp1, hp2, hι, hps, _, _⟩ | ⟨_, hι, hps, _, _⟩
          · rw [hps]
            exact List.mem_map.mpr ⟨prow, hmem, by rw [if_neg hnm]⟩
          · rw [hps]
            exact List.mem_append_left _ hmem
        refine ⟨prow, hmem2, h1, h2, h3, ?_⟩
        show ((upsertPool ps lb.id pid d).2.origins.filter
            (fun o => o.pool_id ≠ (upsertPool ps lb.id pid d).1) ++
            d.origins.map (mkOriginRow (upsertPool ps lb.id pid d).1)).filter
            (fun o => o.pool_id = prow.id) = dw.origins.map (mkOriginRow prow.id)
        rw [List.filter_append, upsertPool_origins,
          origin_filter_ne_then_other _ hidNe, origin_block_filter_other _ hidNe,
          List.append_nil, h5]

theorem sync_one_pool_resync {ps : PoolStore} (hwf : PoolWF ps)
    (lbs : List LBInfo) (pid : String) (fetch : String → Option PoolData)
    (hsyn : pidSynced ps lbs fetch pid) :
    (sync_one_pool ps lbs pid fetch).pools = ps.pools ∧
    (sync_one_pool ps lbs pid fetch).origins.Perm ps.origins := by
  cases hf : fetch pid with
  | none =>
    unfold sync_one_pool
    rw [hf]
    exact ⟨rfl, List.Perm.refl _⟩
  | some d =>
    cases hlb : lbForPool lbs pid with
    | none =>
      unfold sync_one_pool
      rw [hf, hlb]
      exact ⟨rfl, List.Perm.refl _⟩
    | some lb =>
      obtain ⟨prow, hmem, h1, h2, h3, h5⟩ := hsyn d hf lb hlb
      have hfind : ps.pools.find?
          (fun p => p.lb_id = lb.id ∧ p.cf_pool_id = pid) = some prow :=
        pool_find?_unique hwf.1 hmem h1 h2
      have hι : (upsertPool ps lb.id pid d).1 = prow.id := by
        unfold upsertPool
        rw [hfind]
      rw [sync_one_pool_some ps lbs pid fetch d lb hf hlb]
      constructor
      · show (upsertPool ps lb.id pid d).2.pools = ps.pools
        unfold upsertPool
        rw [hfind]
        apply map_id_on
        intro q hq
        by_cases hc : q.lb_id = lb.id ∧ q.cf_pool_id = pid
        · rw [if_pos hc]
          have hqp : q = prow :=
            hwf.1 q hq prow hmem (hc.1.trans h1.symm) (hc.2.trans h2.symm)
          rw [hqp]
          exact h3.symm
        · rw [if_neg hc]
      · show ((upsertPool ps lb.id pid d).2.origins.filter
            (fun o => o.pool_id ≠ (upsertPool ps lb.id pid d).1) ++
            d.origins.map (mkOriginRow (upsertPool ps lb.id pid d).1)).Perm ps.origins
        rw [upsertPool_origins, hι, ← h5]
        exact origin_split_perm ps.origins prow.id

theorem sync_pools_inv (lbs : List LBInfo) (fetch : String → Option PoolData) :
    ∀ (pool_order : List String) (ps : PoolStore), PoolWF ps →
      PoolWF (sync_pools_for_zone ps lbs pool_order fetch) ∧
      (∀ w, pidSynced ps lbs fetch w →
        pidSynced (sync_pools_for_zone ps lbs pool_order fetch) lbs fetch w) ∧
      (∀ pid ∈ pool_order,
        pidSynced (sync_pools_for_zone ps lbs pool_order fetch) lbs fetch pid) := by
  intro pool_order
  induction pool_order with
  | nil =>
    intro ps hwf
    exact ⟨hwf, fun w h => h, by simp⟩
  | cons pid rest ih =>
    intro ps hwf
    obtain ⟨hwf2, hpres2, hall2⟩ :=
      ih (sync_one_pool ps lbs pid fetch) (sync_one_pool_WF hwf lbs pid fetch)
    refine ⟨hwf2, ?_, ?_⟩
    · intro w hw
      exact hpres2 w (sync_one_pool_preserves hwf lbs pid fetch w hw)
    · intro pid2 hp2
      rcases List.mem_cons.mp hp2 with rfl | hmem
      · exact hpres2 pid2 (sync_one_pool_synced ps lbs pid2 fetch)
      · exact hall2 pid2 hmem

theorem sync_pools_resync (lbs : List LBInfo) (fetch : String → Option PoolData) :
    ∀ (pool_order : List String) (ps : PoolStore), PoolWF ps →
      (∀ pid ∈ pool_order, pidSynced ps lbs fetch pid) →
      (sync_pools_for_zone ps lbs pool_order fetch).pools = ps.pools ∧
      (sync_pools_for_zone ps lbs pool_order fetch).origins.Perm ps.origins := by
  intro pool_order
  induction pool_order with
  | nil =>
    intro ps hwf _
    exact ⟨rfl, List.Perm.refl _⟩
  | cons pid rest ih =>
    intro ps hwf hsyn
    have hres := sync_one_pool_resync hwf lbs pid fetch
      (hsyn pid (List.mem_cons_self pid rest))
    obtain ⟨h1, h2⟩ :=
      ih (sync_one_pool ps lbs pid fetch) (sync_one_pool_WF hwf lbs pid fetch)
        (fun pid2 hm =>
          sync_one_pool_preserves hwf lbs pid fetch pid2
            (hsyn pid2 (List.mem_cons_of_mem _ hm)))
    exact ⟨h1.trans hres.1, h2.trans hres.2⟩

/-- C2: for a fixed provider snapshot (the same oracle functions on both
runs, with no non-provider exception) and any starting store satisfying the
database's uniqueness constraints, running the engine twice produces Record
and LoadBalancer row multisets identical to running it once, and running the
pool/origin second pass twice leaves the pool rows identical and the Origin
row multiset identical to one pass.  Timestamp columns are outside the model
(they are exactly the columns the claim allows to differ), and local
auto-increment record/origin row ids, which the code regenerates on each
replace, are not part of the rows; provider-identifier keys and all other
columns are covered. -/
theorem C2_sync_idempotent :
    (∀ (st : Store) (account_ids : List String)
      (zonesOf : String → Except String (List CFZone))
      (recordsOf : String → Except SyncErr (List CFRecord))
      (lbsOf : String → List CFBalancer),
      StoreWF st →
      (∀ zid m, recordsOf zid ≠ .error (.other m)) →
      ∃ s1 sm1 s2 sm2,
        sync_accounts st account_ids zonesOf recordsOf lbsOf = .ok (s1, sm1) ∧
        sync_accounts s1 account_ids zonesOf recordsOf lbsOf = .ok (s2, sm2) ∧
        s2.records.Perm s1.records ∧ s2.lbs.Perm s1.lbs) ∧
    (∀ (ps : PoolStore) (lbs : List LBInfo) (pool_order : List String)
      (fetch : String → Option PoolData),
      PoolWF ps →
      (sync_pools_for_zone (sync_pools_for_zone ps lbs pool_order fetch) lbs
        pool_order fetch).pools =
        (sync_pools_for_zone ps lbs pool_order fetch).pools ∧
      (sync_pools_for_zone (sync_pools_for_zone ps lbs pool_order fetch) lbs
        pool_order fetch).origins.Perm
        (sync_pools_for_zone ps lbs pool_order fetch).origins) := by
  constructor
  · intro st account_ids zonesOf recordsOf lbsOf hwf hno
    obtain ⟨s1, sm1, hrun1, hwf1, _, hall1⟩ :=
      syncAccountsGo_inv zonesOf recordsOf lbsOf hno account_ids st ⟨0, 0, 0⟩ hwf
    obtain ⟨s2, sm2, hrun2, _, hp1, hp2, _⟩ :=
      syncAccountsGo_resync zonesOf recordsOf lbsOf hno account_ids s1 ⟨0, 0, 0⟩
        hwf1 hall1
    exact ⟨s1, sm1, s2, sm2, hrun1, hrun2, hp1, hp2⟩
  · intro ps lbs pool_order fetch hwf
    obtain ⟨hwf1, _, hall1⟩ := sync_pools_inv lbs fetch pool_order ps hwf
    exact sync_pools_resync lbs fetch pool_order
      (sync_pools_for_zone ps lbs pool_order fetch) hwf1 hall1

/-- Witness for C2 at a concrete input: one account with one zone and one
record, synced twice from the empty store, and one pool order resynced. -/
theorem C2_sync_idempotent_witness :
    (∃ s1 sm1 s2 sm2,
      sync_accounts ⟨[], [], [], [], 1, 1⟩ ["acct"]
        (fun _ => .ok [zoneA3]) (fun _ => .ok [recW "r1"]) (fun _ => []) =
        .ok (s1, sm1) ∧
      sync_accounts s1 ["acct"]
        (fun _ => .ok [zoneA3]) (fun _ => .ok [recW "r1"]) (fun _ => []) =
        .ok (s2, sm2) ∧
      s2.records.Perm s1.records ∧ s2.lbs.Perm s1.lbs) ∧
    (sync_pools_for_zone (sync_pools_for_zone ⟨[], [], 1⟩
        [⟨7, some "lb1", some "lb", some ["p1"]⟩] ["p1"]
        (fun _ => some ⟨some "pool1", none, none, none, none, none, none, none,
          [⟨some "o1", some "1.2.3.4", none, none, none, none⟩]⟩))
      [⟨7, some "lb1", some "lb", some ["p1"]⟩] ["p1"]
      (fun _ => some ⟨some "pool1", none, none, none, none, none, none, none,
        [⟨some "o1", some "1.2.3.4", none, none, none, none⟩]⟩)).pools =
      (sync_pools_for_zone ⟨[], [], 1⟩ [⟨7, some "lb1", some "lb", some ["p1"]⟩]
        ["p1"]
        (fun _ => some ⟨some "pool1", none, none, none, none, none, none, none,
          [⟨some "o1", some "1.2.3.4", none, none, none, none⟩]⟩)).pools := by
  constructor
  · exact C2_sync_idempotent.1 ⟨[], [], [], [], 1, 1⟩ ["acct"]
      (fun _ => .ok [zoneA3]) (fun _ => .ok [recW "r1"]) (fun _ => [])
      ⟨by simp, by simp, by simp⟩ (fun zid m h => by simp at h)
  · exact (C2_sync_idempotent.2 ⟨[], [], 1⟩ [⟨7, some "lb1", some "lb", some ["p1"]⟩]
      ["p1"]
      (fun _ => some ⟨some "pool1", none, none, none, none, none, none, none,
        [⟨some "o1", some "1.2.3.4", none, none, none, none⟩]⟩)
      ⟨by simp, by simp, by simp⟩).1

end DnsSync
